import Mathlib

/-!
# Bebion core: a shallow embedding in Lean 4

This file embeds the core pipeline of the Bebion JavaScript runtime
(lexer, bytecode compiler, stack virtual machine, generational garbage
collector) and proves or refutes the specification claims about it.

Modelling conventions, used throughout:

* Rust `HashMap`/`HashSet` are modelled as association lists / duplicate-free
  lists with insertion order kept.  Every program behaviour the claims touch
  is independent of hash iteration order.
* Rust `Vec` stacks (operand stack, call stack, scope stack) are modelled as
  Lean lists with the most recently pushed element at the head.
* `f64` is idealised as `NumV` (a rational number or NaN); float rounding,
  signed zero and infinities are collapsed.  No claim settled here depends
  on float-specific behaviour.
* Rust panics are modelled as explicit `.error`/`none` outcomes, kept
  distinct from the `Err` values of fallible Rust functions.
* `usize` arithmetic uses `Nat`; Rust `saturating_sub` is Lean's truncated
  `Nat` subtraction.
-/

namespace Bebion

/-! ## Association-list model of `HashMap` and list model of `HashSet` -/

/-- The `HashMap::get`: first binding of the key, if any. -/
def alistLookup {κ ν : Type} [DecidableEq κ] : List (κ × ν) → κ → Option ν
  | [], _ => none
  | (k, v) :: rest, key => if k = key then some v else alistLookup rest key

/-- The `HashMap::insert`: replace the existing binding in place, else append. -/
def alistInsert {κ ν : Type} [DecidableEq κ] : List (κ × ν) → κ → ν → List (κ × ν)
  | [], key, val => [(key, val)]
  | (k, v) :: rest, key, val =>
      if k = key then (key, val) :: rest else (k, v) :: alistInsert rest key val

/-- The `HashMap::remove` (bindings are unique, so a filter suffices). -/
def alistRemove {κ ν : Type} [DecidableEq κ] (l : List (κ × ν)) (key : κ) : List (κ × ν) :=
  l.filter (fun p => p.1 ≠ key)

/-- The `HashSet::insert` on a duplicate-free list. -/
def setInsert {κ : Type} [DecidableEq κ] (l : List κ) (x : κ) : List κ :=
  if x ∈ l then l else l ++ [x]

/-- The `HashSet::remove` on a duplicate-free list. -/
def setRemove {κ : Type} [DecidableEq κ] (l : List κ) (x : κ) : List κ :=
  l.filter (fun y => y ≠ x)

/-! ## Idealised `f64` -/

/-- An `f64` value: NaN or a rational.  (Infinities and signed zero are
collapsed; no claim below depends on them.) -/
inductive NumV : Type where
  | nan : NumV
  | num (q : ℚ) : NumV
  deriving DecidableEq, Repr

/-! ## Garbage collector (`crates/bebion-gc/src/lib.rs`)

`GcHandle` is a `usize` wrapper; handles are modelled directly as `Nat`. -/

/-- The `enum Generation`. -/
inductive Generation : Type where
  | Young
  | Old
  deriving DecidableEq, Repr

/-- The `enum PromiseState`. -/
inductive PromiseState : Type where
  | Pending
  | Fulfilled
  | Rejected
  deriving DecidableEq, Repr

/-- The `enum GcObjectType`.  The `Function` payload `bytecode: Vec<u8>` is raw
bytes in the source and is modelled as a list of byte values. -/
inductive GcObjectType : Type where
  | Number (n : NumV)
  | String (s : String)
  | Boolean (b : Bool)
  | Null
  | Undefined
  | Object (map : List (String × Nat))
  | Array (arr : List Nat)
  | Function (name : Option String) (bytecode : List Nat) (closure : List (String × Nat))
  | Promise (state : PromiseState) (value : Option Nat) (callbacks : List Nat)
  deriving DecidableEq, Repr

/-- The `struct GcObject`. -/
structure GcObject : Type where
  object_type : GcObjectType
  generation : Generation
  marked : Bool
  size : Nat
  references : List Nat
  deriving DecidableEq, Repr

/-- The `struct GarbageCollector`.  `next_handle` is an `AtomicUsize` in the
source; the collector sits behind a mutex and is accessed single-threadedly,
so a plain counter is faithful. -/
structure GcState : Type where
  objects : List (Nat × GcObject)
  next_handle : Nat
  root_set : List Nat
  young_objects : List Nat
  old_objects : List Nat
  total_allocations : Nat
  total_collections : Nat
  bytes_allocated : Nat
  bytes_freed : Nat
  young_threshold : Nat
  old_threshold : Nat
  collection_frequency : Nat
  deriving DecidableEq, Repr

/-- The `GarbageCollector::new`. -/
def gcNew : GcState where
  objects := []
  next_handle := 1
  root_set := []
  young_objects := []
  old_objects := []
  total_allocations := 0
  total_collections := 0
  bytes_allocated := 0
  bytes_freed := 0
  young_threshold := 1024 * 1024
  old_threshold := 10 * 1024 * 1024
  collection_frequency := 100

/-- The `GarbageCollector::calculate_object_size` (`String::len` is the UTF-8
byte length). -/
def calculate_object_size : GcObjectType → Nat
  | .Number _ => 8
  | .Boolean _ => 1
  | .Null | .Undefined => 0
  | .String s => s.utf8ByteSize
  | .Object map => map.length * 16
  | .Array arr => arr.length * 8
  | .Function _ bytecode closure => bytecode.length + closure.length * 16
  | .Promise _ _ _ => 64

/-- The `GarbageCollector::extract_references` (a `HashSet` built by insertion). -/
def extract_references : GcObjectType → List Nat
  | .Object map => map.foldl (fun acc p => setInsert acc p.2) []
  | .Array arr => arr.foldl (fun acc h => setInsert acc h) []
  | .Function _ _ closure => closure.foldl (fun acc p => setInsert acc p.2) []
  | .Promise _ value callbacks =>
      let acc := match value with
        | some h => setInsert [] h
        | none => []
      callbacks.foldl (fun acc h => setInsert acc h) acc
  | _ => []

/-- The `GarbageCollector::add_root`. -/
def add_root (s : GcState) (handle : Nat) : GcState :=
  { s with root_set := setInsert s.root_set handle }

/-- The `GarbageCollector::remove_root`. -/
def remove_root (s : GcState) (handle : Nat) : GcState :=
  { s with root_set := setRemove s.root_set handle }

/-- The `GarbageCollector::update_object`.  Returns the new state and the
`bool` result. -/
def update_object (s : GcState) (handle : Nat) (new_type : GcObjectType) :
    GcState × Bool :=
  match alistLookup s.objects handle with
  | some object =>
      let old_size := object.size
      let new_size := calculate_object_size new_type
      let new_references := extract_references new_type
      let object := { object with
        object_type := new_type
        size := new_size
        references := new_references }
      ({ s with
          objects := alistInsert s.objects handle object
          bytes_allocated := s.bytes_allocated - old_size + new_size }, true)
  | none => (s, false)

/-- The `GarbageCollector::clear_marks`. -/
def clear_marks (s : GcState) : GcState :=
  { s with objects := s.objects.map (fun p => (p.1, { p.2 with marked := false })) }

/-- The `GarbageCollector::mark_object`, recursion bounded by fuel.  The Rust
recursion marks a new object before each recursive call, so a fuel of
`objects.length + 1` (one per possible recursion depth) is exact. -/
def markObject : Nat → List (Nat × GcObject) → Nat → List (Nat × GcObject)
  | 0, objs, _ => objs
  | fuel + 1, objs, handle =>
      match alistLookup objs handle with
      | none => objs
      | some object =>
          if object.marked then objs
          else
            let objs := alistInsert objs handle { object with marked := true }
            object.references.foldl (fun acc h => markObject fuel acc h) objs

/-- The `GarbageCollector::mark_from_roots`. -/
def mark_from_roots (s : GcState) : GcState :=
  let fuel := s.objects.length + 1
  { s with objects := s.root_set.foldl (fun objs root => markObject fuel objs root) s.objects }

/-- Loop body of `GarbageCollector::remove_objects`: drop one handle from
every table, accumulating the freed byte count. -/
def removeObjectsStep (acc : GcState × Nat) (h : Nat) : GcState × Nat :=
  match alistLookup acc.1.objects h with
  | some object =>
      ({ acc.1 with
          objects := alistRemove acc.1.objects h
          young_objects := setRemove acc.1.young_objects h
          old_objects := setRemove acc.1.old_objects h
          root_set := setRemove acc.1.root_set h }, acc.2 + object.size)
  | none => acc

/-- The `GarbageCollector::remove_objects`. -/
def remove_objects (s : GcState) (handles : List Nat) : GcState × Nat :=
  let res := handles.foldl removeObjectsStep (s, 0)
  ({ res.1 with bytes_allocated := res.1.bytes_allocated - res.2 }, handles.length)

/-- The in-place generation change of the promotion loop in
`GarbageCollector::minor_collect`. -/
def promoteObjectsStep (objs : List (Nat × GcObject)) (h : Nat) : List (Nat × GcObject) :=
  match alistLookup objs h with
  | some object => alistInsert objs h { object with generation := .Old }
  | none => objs

/-- The young-to-old set move of the promotion loop in
`GarbageCollector::minor_collect`. -/
def promoteSetsStep (st : GcState) (h : Nat) : GcState :=
  { st with
      young_objects := setRemove st.young_objects h
      old_objects := setInsert st.old_objects h }

/-- The `GarbageCollector::minor_collect`. -/
def minor_collect (s : GcState) : GcState × Nat :=
  let s := mark_from_roots (clear_marks s)
  let promoted := s.young_objects.filter (fun h =>
    match alistLookup s.objects h with
    | some object => object.marked
    | none => false)
  let s := { s with objects := promoted.foldl promoteObjectsStep s.objects }
  let s := promoted.foldl promoteSetsStep s
  let to_remove := s.young_objects.filter (fun h =>
    match alistLookup s.objects h with
    | some object => !object.marked
    | none => false)
  remove_objects s to_remove

/-- The `GarbageCollector::full_collect`. -/
def full_collect (s : GcState) : GcState × Nat :=
  let s := mark_from_roots (clear_marks s)
  let to_remove := (s.objects.filter (fun p => !p.2.marked)).map Prod.fst
  remove_objects s to_remove

/-- The `GarbageCollector::collect`. -/
def collect (s : GcState) : GcState × Nat :=
  let initial_count := s.objects.length
  let initial_bytes := s.bytes_allocated
  let full_collection := s.total_collections % 10 = 0
  let s := if full_collection then (full_collect s).1 else (minor_collect s).1
  let final_count := s.objects.length
  let final_bytes := s.bytes_allocated
  let collected_objects := initial_count - final_count
  let collected_bytes := initial_bytes - final_bytes
  let s := { s with
      total_collections := s.total_collections + 1
      bytes_freed := s.bytes_freed + collected_bytes }
  (s, collected_objects)

/-- The `GarbageCollector::should_collect`. -/
def should_collect (s : GcState) : Bool :=
  let young_bytes := (s.young_objects.filterMap (fun h =>
    alistLookup s.objects h)).foldl (fun acc object => acc + object.size) 0
  young_bytes > s.young_threshold ||
    s.total_allocations % s.collection_frequency = 0

/-- The `GarbageCollector::allocate`.  Returns the issued handle together with
the new state. -/
def allocate (s : GcState) (object_type : GcObjectType) : Nat × GcState :=
  let handle := s.next_handle
  let s := { s with next_handle := s.next_handle + 1 }
  let size := calculate_object_size object_type
  let references := extract_references object_type
  let object : GcObject :=
    { object_type := object_type
      generation := .Young
      marked := false
      size := size
      references := references }
  let s := { s with
      objects := alistInsert s.objects handle object
      young_objects := setInsert s.young_objects handle
      total_allocations := s.total_allocations + 1
      bytes_allocated := s.bytes_allocated + size }
  let s := if should_collect s then (collect s).1 else s
  (handle, s)

/-- One public collector operation, as enumerated by the specification's
collector claims. -/
inductive GcOp : Type where
  | allocateOp (t : GcObjectType)
  | updateOp (h : Nat) (t : GcObjectType)
  | addRootOp (h : Nat)
  | removeRootOp (h : Nat)
  | collectOp
  deriving Repr

/-- State after one collector operation. -/
def applyOp (s : GcState) : GcOp → GcState
  | .allocateOp t => (allocate s t).2
  | .updateOp h t => (update_object s h t).1
  | .addRootOp h => add_root s h
  | .removeRootOp h => remove_root s h
  | .collectOp => (collect s).1

/-- State after a sequence of collector operations. -/
def applyOps (s : GcState) (ops : List GcOp) : GcState :=
  ops.foldl applyOp s

/-- The handles returned by the `allocate` calls of a sequence, in order. -/
def traceHandles (s : GcState) : List GcOp → List Nat
  | [] => []
  | op :: rest =>
      match op with
      | .allocateOp t => (allocate s t).1 :: traceHandles (applyOp s op) rest
      | _ => traceHandles (applyOp s op) rest

/-! ## Bytecode (`crates/bebion-compiler/src/bytecode.rs`) -/

/-- The `enum Instruction`.  `isize` jump offsets are modelled as `Int`. -/
inductive Instruction : Type where
  | LoadConstant (i : Nat)
  | LoadGlobal (i : Nat)
  | StoreGlobal (i : Nat)
  | LoadLocal (i : Nat)
  | StoreLocal (i : Nat)
  | Add
  | Subtract
  | Multiply
  | Divide
  | Modulo
  | Power
  | Equal
  | NotEqual
  | StrictEqual
  | StrictNotEqual
  | Less
  | LessEqual
  | Greater
  | GreaterEqual
  | LogicalAnd
  | LogicalOr
  | LogicalNot
  | BitwiseAnd
  | BitwiseOr
  | BitwiseXor
  | BitwiseNot
  | LeftShift
  | RightShift
  | UnsignedRightShift
  | UnaryPlus
  | UnaryMinus
  | TypeOf
  | Jump (off : Int)
  | JumpIfFalse (off : Int)
  | JumpIfTrue (off : Int)
  | Call (argc : Nat)
  | Return
  | NewObject
  | GetProperty
  | SetProperty
  | GetElement
  | SetElement
  | NewArray (n : Nat)
  | DeclareVar (slot : Nat)
  | DeclareLet (slot : Nat)
  | DeclareConst (slot : Nat)
  | Pop
  | Duplicate
  | Swap
  | Nop
  | Halt
  | Await
  | Throw
  | TryBegin (catchIdx : Nat)
  | TryEnd
  | CatchBegin
  | CatchEnd
  | FinallyBegin
  | FinallyEnd
  | Import (i : Nat)
  | Export (i : Nat)
  | DebugInfo (line column : Nat)
  deriving Repr

mutual
/-- The `enum Constant`; the `Function` variant nests a whole `Bytecode` unit. -/
inductive Constant : Type where
  | Number (n : NumV)
  | String (s : String)
  | Boolean (b : Bool)
  | Null
  | Undefined
  | Function (name : Option String) (param_count : Nat) (bytecode : Bytecode)
      (is_async : Bool) (is_generator : Bool)

/-- The `struct Bytecode` (one constructor; accessors below).  The
`source_map : HashMap<usize, (usize, usize)>` is an association list. -/
inductive Bytecode : Type where
  | mk (instructions : List Instruction) (constants : List Constant)
      (names : List String) (source_map : List (Nat × Nat × Nat))
end

/-- Field accessor for `Bytecode.instructions`. -/
def Bytecode.instructions : Bytecode → List Instruction
  | .mk i _ _ _ => i

/-- Field accessor for `Bytecode.constants`. -/
def Bytecode.constants : Bytecode → List Constant
  | .mk _ c _ _ => c

/-- Field accessor for `Bytecode.names`. -/
def Bytecode.names : Bytecode → List String
  | .mk _ _ n _ => n

/-- Field accessor for `Bytecode.source_map`. -/
def Bytecode.source_map : Bytecode → List (Nat × Nat × Nat)
  | .mk _ _ _ m => m

/-- The `Bytecode::new`. -/
def Bytecode.new : Bytecode := .mk [] [] [] []

/-- The `Bytecode::emit`: append and return the instruction's index. -/
def Bytecode.emit (b : Bytecode) (instruction : Instruction) : Bytecode × Nat :=
  (.mk (b.instructions ++ [instruction]) b.constants b.names b.source_map,
    b.instructions.length)

/-- The `Bytecode::add_constant`. -/
def Bytecode.add_constant (b : Bytecode) (constant : Constant) : Bytecode × Nat :=
  (.mk b.instructions (b.constants ++ [constant]) b.names b.source_map,
    b.constants.length)

/-- The `Bytecode::add_name`: deduplicating interning of an identifier. -/
def Bytecode.add_name (b : Bytecode) (name : String) : Bytecode × Nat :=
  match b.names.indexOf? name with
  | some index => (b, index)
  | none =>
      (.mk b.instructions b.constants (b.names ++ [name]) b.source_map,
        b.names.length)

/-- The `Bytecode::len`. -/
def Bytecode.len (b : Bytecode) : Nat := b.instructions.length

/-- The `Bytecode::patch_jump`.  The Rust function writes
`target as isize - jump_index as isize - 1` into the jump's operand and
panics (`.error msg`) when `instructions[jump_index]` is not one of the
three jump instructions (or, via the indexing itself, is out of range). -/
def Bytecode.patch_jump (b : Bytecode) (jump_index target_index : Nat) :
    Except String Bytecode :=
  let offset : Int := (target_index : Int) - (jump_index : Int) - 1
  match b.instructions[jump_index]? with
  | none => .error "index out of bounds"
  | some (.Jump _) =>
      .ok (.mk (b.instructions.set jump_index (.Jump offset))
        b.constants b.names b.source_map)
  | some (.JumpIfFalse _) =>
      .ok (.mk (b.instructions.set jump_index (.JumpIfFalse offset))
        b.constants b.names b.source_map)
  | some (.JumpIfTrue _) =>
      .ok (.mk (b.instructions.set jump_index (.JumpIfTrue offset))
        b.constants b.names b.source_map)
  | some _ => .error "Attempted to patch non-jump instruction"

/-- The loop body of `Bytecode::optimize`: at index `i`, a
`LoadConstant; Pop` window is deleted (without advancing `i`), a
`LoadConstant; Return` window is rewritten to itself, anything else
advances `i`.  Each iteration either shortens the list or advances `i`,
so `2 * length + 1` fuel is exact. -/
def optimizeGo : Nat → List Instruction → Nat → List Instruction
  | 0, instrs, _ => instrs
  | fuel + 1, instrs, i =>
      if i < instrs.length then
        match instrs[i]?, instrs[i + 1]? with
        | some (.LoadConstant _), some .Pop =>
            optimizeGo fuel (instrs.take i ++ instrs.drop (i + 2)) i
        | some (.LoadConstant idx), some .Return =>
            optimizeGo fuel
              ((instrs.set i (.LoadConstant idx)).set (i + 1) .Return) (i + 1)
        | _, _ => optimizeGo fuel instrs (i + 1)
      else instrs

/-- The `Bytecode::optimize`. -/
def Bytecode.optimize (b : Bytecode) : Bytecode :=
  .mk (optimizeGo (2 * b.instructions.length + 1) b.instructions 0)
    b.constants b.names b.source_map

/-! ## Values (`crates/bebion-runtime/src/value.rs`) -/

/-- The `enum RuntimeError` (`crates/bebion-runtime/src/lib.rs`).  The payload
strings keep only the static part of the Rust `format!` messages. -/
inductive RuntimeError : Type where
  | TypeError (msg : String)
  | ReferenceError (msg : String)
  | SyntaxError (msg : String)
  | RangeError (msg : String)
  | StackOverflow
  | OutOfMemory
  | InvalidBytecode (msg : String)
  | InvalidOperation (msg : String)
  | AsyncError (msg : String)
  deriving DecidableEq, Repr

/-- The `enum Value`.  `Object` carries a `GcHandle`. -/
inductive Value : Type where
  | Number (n : NumV)
  | String (s : String)
  | Boolean (b : Bool)
  | Null
  | Undefined
  | Object (h : Nat)
  deriving DecidableEq, Repr

/-- The string type, under a name that stays visible inside the `Value`
namespace (where the bare name `String` denotes the `Value.String`
constructor). -/
abbrev Str : Type := String

/-- Integer value of a digit run. -/
def digitsToNat (cs : List Char) : Nat :=
  cs.foldl (fun acc c => acc * 10 + (c.toNat - 48)) 0

/-- Idealisation of Rust `str::parse::<f64>`: an optional sign, digits and an
optional fraction part, evaluated exactly in `ℚ`.  (Exponents and the
`inf`/`NaN` spellings accepted by Rust are not modelled; no claim settled in
this file evaluates a numeric string parse.) -/
def rustParseFloat (s : String) : Option NumV :=
  let cs := s.toList
  let sign : Bool := match cs with
    | '-' :: _ => true
    | _ => false
  let cs := match cs with
    | '-' :: rest => rest
    | '+' :: rest => rest
    | rest => rest
  let ip := cs.takeWhile Char.isDigit
  let cs := cs.dropWhile Char.isDigit
  match cs with
  | [] =>
      if ip.isEmpty then none
      else
        let q : ℚ := (digitsToNat ip : ℚ)
        some (.num (if sign then -q else q))
  | '.' :: rest =>
      let fp := rest.takeWhile Char.isDigit
      let rest := rest.dropWhile Char.isDigit
      if rest.isEmpty && !(ip.isEmpty && fp.isEmpty) then
        let q : ℚ := (digitsToNat ip : ℚ) + (digitsToNat fp : ℚ) / ((10 : ℚ) ^ fp.length)
        some (.num (if sign then -q else q))
      else none
  | _ => none

/-- The `Value::to_boolean`.  For a number the Rust test is
`*n != 0.0 && !n.is_nan()`. -/
def Value.to_boolean : Value → Bool
  | .Boolean b => b
  | .Number .nan => false
  | .Number (.num q) => q != 0
  | .String s => !s.isEmpty
  | .Null => false
  | .Undefined => false
  | .Object _ => true

/-- The `Value::to_number`. -/
def Value.to_number : Value → Except RuntimeError NumV
  | .Number n => .ok n
  | .Boolean true => .ok (.num 1)
  | .Boolean false => .ok (.num 0)
  | .String s =>
      match rustParseFloat s with
      | some n => .ok n
      | none => .error (.TypeError "Cannot convert string to number")
  | .Null => .ok (.num 0)
  | .Undefined => .ok .nan
  | .Object _ => .error (.TypeError "Cannot convert object to number")

/-- Idealised rendering of the Rust float formatting in `Value::to_string`
(integral values print as integers). -/
def numToString (n : NumV) : String :=
  match n with
  | .nan => "NaN"
  | .num q => if q.den = 1 then toString q.num else toString q

/-- The `Value::to_string`. -/
def Value.to_string : Value → Str
  | .Number n => numToString n
  | .String s => s
  | .Boolean true => "true"
  | .Boolean false => "false"
  | .Null => "null"
  | .Undefined => "undefined"
  | .Object _ => "[object Object]"

/-- The `f64` `==`: NaN is never equal to anything. -/
def numEqF : NumV → NumV → Bool
  | .num a, .num b => a == b
  | _, _ => false

/-- The `f64` `<`: false whenever either side is NaN. -/
def numLt : NumV → NumV → Bool
  | .num a, .num b => a < b
  | _, _ => false

/-- The `f64` `<=`: false whenever either side is NaN. -/
def numLe : NumV → NumV → Bool
  | .num a, .num b => a ≤ b
  | _, _ => false

/-- The `Value::strict_equals`. -/
def Value.strict_equals : Value → Value → Bool
  | .Number a, .Number b => numEqF a b
  | .String a, .String b => a == b
  | .Boolean a, .Boolean b => a == b
  | .Null, .Null => true
  | .Undefined, .Undefined => true
  | .Object a, .Object b => a == b
  | _, _ => false

/-- The one-step unfolding of `Value::loose_equals` after its boolean arm
coerces a boolean to `Value::Number`: a number loosely equals a number, a
parseable string, or a boolean's numeric image, and nothing else. -/
def numLooseEq (n : NumV) : Value → Bool
  | .Number m => numEqF n m
  | .String s =>
      match rustParseFloat s with
      | some m => numEqF n m
      | none => false
  | .Boolean b => numEqF n (.num (if b then 1 else 0))
  | _ => false

/-- The `Value::loose_equals`. -/
def Value.loose_equals : Value → Value → Bool
  | .Number a, .Number b => numEqF a b
  | .String a, .String b => a == b
  | .Boolean a, .Boolean b => a == b
  | .Null, .Null => true
  | .Undefined, .Undefined => true
  | .Object a, .Object b => a == b
  | .Null, .Undefined => true
  | .Undefined, .Null => true
  | .Number n, .String s =>
      (match rustParseFloat s with
        | some m => numEqF n m
        | none => false)
  | .String s, .Number n =>
      (match rustParseFloat s with
        | some m => numEqF n m
        | none => false)
  | .Boolean b, other => numLooseEq (.num (if b then 1 else 0)) other
  | other, .Boolean b => numLooseEq (.num (if b then 1 else 0)) other
  | _, _ => false

/-- The `f64` addition (NaN propagates). -/
def numAdd : NumV → NumV → NumV
  | .num a, .num b => .num (a + b)
  | _, _ => .nan

/-- The `f64` subtraction (NaN propagates). -/
def numSub : NumV → NumV → NumV
  | .num a, .num b => .num (a - b)
  | _, _ => .nan

/-- The `f64` multiplication (NaN propagates). -/
def numMul : NumV → NumV → NumV
  | .num a, .num b => .num (a * b)
  | _, _ => .nan

/-- The `f64` division; division by zero (an infinity in `f64`) is collapsed
into NaN by this idealisation. -/
def numDiv : NumV → NumV → NumV
  | .num a, .num b => if b = 0 then .nan else .num (a / b)
  | _, _ => .nan

/-- Truncation toward zero of a rational, as Rust float-to-int semantics. -/
def ratTrunc (x : ℚ) : ℤ :=
  if 0 ≤ x then ⌊x⌋ else -⌊-x⌋

/-- The `f64` `%` (remainder with truncated quotient). -/
def numRem : NumV → NumV → NumV
  | .num a, .num b => if b = 0 then .nan else .num (a - b * (ratTrunc (a / b) : ℚ))
  | _, _ => .nan

/-- The `f64::powf`, idealised: exact for integer exponents, NaN otherwise. -/
def numPow : NumV → NumV → NumV
  | .num a, .num b => if b.den = 1 then .num (a ^ b.num) else .nan
  | _, _ => .nan

/-- The `value::add_values`. -/
def add_values (left right : Value) : Except RuntimeError Value :=
  match left, right with
  | .Number a, .Number b => .ok (.Number (numAdd a b))
  | .String a, .String b => .ok (.String (a ++ b))
  | .String a, b => .ok (.String (a ++ b.to_string))
  | a, .String b => .ok (.String (a.to_string ++ b))
  | a, b => do
      let an ← a.to_number
      let bn ← b.to_number
      .ok (.Number (numAdd an bn))

/-- The `value::subtract_values`. -/
def subtract_values (left right : Value) : Except RuntimeError Value := do
  let a ← left.to_number
  let b ← right.to_number
  .ok (.Number (numSub a b))

/-- The `value::multiply_values`. -/
def multiply_values (left right : Value) : Except RuntimeError Value := do
  let a ← left.to_number
  let b ← right.to_number
  .ok (.Number (numMul a b))

/-- The `value::divide_values`. -/
def divide_values (left right : Value) : Except RuntimeError Value := do
  let a ← left.to_number
  let b ← right.to_number
  .ok (.Number (numDiv a b))

/-- The `value::modulo_values`. -/
def modulo_values (left right : Value) : Except RuntimeError Value := do
  let a ← left.to_number
  let b ← right.to_number
  .ok (.Number (numRem a b))

/-- The `value::power_values`. -/
def power_values (left right : Value) : Except RuntimeError Value := do
  let a ← left.to_number
  let b ← right.to_number
  .ok (.Number (numPow a b))

/-! ## Virtual machine (`crates/bebion-runtime/src/vm.rs`) -/

/-- The `struct CallFrame`. -/
structure CallFrame : Type where
  bytecode : Bytecode
  pc : Nat
  locals : List Value
  base_stack_offset : Nat

/-- The `struct VirtualMachine`.  The operand stack and the call stack are Rust
`Vec`s; they are modelled as lists with the most recently pushed element at
the head. -/
structure VmState : Type where
  gc : GcState
  stack : List Value
  call_stack : List CallFrame
  globals : List (String × Value)
  max_stack_size : Nat
  max_call_depth : Nat

/-- The `VirtualMachine::new`. -/
def vmNew (gc : GcState) : VmState where
  gc := gc
  stack := []
  call_stack := []
  globals := []
  max_stack_size := 10000
  max_call_depth := 1000

/-- The `VirtualMachine::push_stack`. -/
def push_stack (s : VmState) (value : Value) : Except RuntimeError VmState :=
  if s.stack.length ≥ s.max_stack_size then .error .StackOverflow
  else .ok { s with stack := value :: s.stack }

/-- The `VirtualMachine::pop_stack`. -/
def pop_stack (s : VmState) : Except RuntimeError (Value × VmState) :=
  match s.stack with
  | [] => .error (.InvalidOperation "Stack underflow")
  | value :: rest => .ok (value, { s with stack := rest })

/-- The `VirtualMachine::peek_stack`: `index = len.saturating_sub(offset + 1)`
into the `Vec` (whose index 0 is the stack bottom; hence the `reverse`). -/
def peek_stack (s : VmState) (offset : Nat) : Except RuntimeError Value :=
  let index := s.stack.length - (offset + 1)
  match s.stack.reverse[index]? with
  | some value => .ok value
  | none => .error (.InvalidOperation "Stack underflow")

/-- Pop `n` values (the loop at the top of
`VirtualMachine::handle_function_call`); results in pop order. -/
def popN (s : VmState) : Nat → Except RuntimeError (List Value × VmState)
  | 0 => .ok ([], s)
  | n + 1 => do
      let (v, s) ← pop_stack s
      let (vs, s) ← popN s n
      .ok (v :: vs, s)

/-- The `VirtualMachine::constant_to_value`.  A function constant allocates a
heap function object with an empty byte vector and empty closure
("Simplified for now" in the source): the function body bytecode is
discarded. -/
def constant_to_value (s : VmState) : Constant → Value × VmState
  | .Number n => (.Number n, s)
  | .String str => (.String str, s)
  | .Boolean b => (.Boolean b, s)
  | .Null => (.Null, s)
  | .Undefined => (.Undefined, s)
  | .Function name _ _ _ _ =>
      let res := allocate s.gc (.Function name [] [])
      (.Object res.1, { s with gc := res.2 })

/-- The `GarbageCollector::get_object_type`. -/
def get_object_type (gc : GcState) (handle : Nat) : Option GcObjectType :=
  (alistLookup gc.objects handle).map GcObject.object_type

/-- The `VirtualMachine::handle_function_call`.  Even when the callee is a heap
function object the source returns
`Err(InvalidOperation("Function calls not fully implemented"))` instead of
pushing a call frame. -/
def handle_function_call (s : VmState) (arg_count : Nat) :
    Except RuntimeError VmState := do
  let (args, s) ← popN s arg_count
  let _ := args.reverse
  let (function, s) ← pop_stack s
  match function with
  | .Object handle =>
      match get_object_type s.gc handle with
      | some (.Function _ _ _) =>
          .error (.InvalidOperation "Function calls not fully implemented")
      | _ => .error (.TypeError "Not a function")
  | _ => .error (.TypeError "Not a function")

/-- Pop `n` values for `NewArray`, requiring each to be an object handle;
a primitive value is a `TypeError` ("Array elements must be objects"). -/
def popHandles (s : VmState) : Nat → Except RuntimeError (List Nat × VmState)
  | 0 => .ok ([], s)
  | n + 1 => do
      let (v, s) ← pop_stack s
      match v with
      | .Object h => do
          let (hs, s) ← popHandles s n
          .ok (h :: hs, s)
      | _ => .error (.TypeError "Array elements must be objects")

/-- Effect of dispatching one instruction: an updated state, or an exit
from the interpreter loop with a value. -/
inductive StepEffect : Type where
  | state (s : VmState)
  | ret (v : Value)

/-- The `frame.pc += 1` followed by falling through to the next loop iteration. -/
def advancePc (s : VmState) (frame : CallFrame) (rest : List CallFrame) : StepEffect :=
  .state { s with call_stack := { frame with pc := frame.pc + 1 } :: rest }

/-- The dispatch `match` of `VirtualMachine::run_interpreter_loop`, for one
instruction.  `s.call_stack = frame :: rest`.  The final catch-all arm is the
source's `_ => Err(InvalidBytecode("Unimplemented instruction: ..."))`: it
receives every instruction not matched above it, `DeclareVar`/`DeclareLet`/
`DeclareConst`, `Throw` and the `Try`/`Catch`/`Finally` family included. -/
def stepInstr (s : VmState) (frame : CallFrame) (rest : List CallFrame) :
    Instruction → Except RuntimeError StepEffect
  | .LoadConstant idx =>
      match frame.bytecode.constants[idx]? with
      | none => .error (.InvalidBytecode "Invalid constant index")
      | some constant => do
          let (value, s) := constant_to_value s constant
          let s ← push_stack s value
          .ok (advancePc s frame rest)
  | .LoadGlobal idx =>
      match frame.bytecode.names[idx]? with
      | none => .error (.InvalidBytecode "Invalid name index")
      | some name => do
          let value := (alistLookup s.globals name).getD .Undefined
          let s ← push_stack s value
          .ok (advancePc s frame rest)
  | .StoreGlobal idx =>
      match frame.bytecode.names[idx]? with
      | none => .error (.InvalidBytecode "Invalid name index")
      | some name => do
          let (value, s) ← pop_stack s
          let s := { s with globals := alistInsert s.globals name value }
          .ok (advancePc s frame rest)
  | .LoadLocal idx => do
      let value := frame.locals[idx]?.getD .Undefined
      let s ← push_stack s value
      .ok (advancePc s frame rest)
  | .StoreLocal idx => do
      let (value, s) ← pop_stack s
      let locals := frame.locals ++ List.replicate (idx + 1 - frame.locals.length) .Undefined
      let frame := { frame with locals := locals.set idx value }
      .ok (advancePc s frame rest)
  | .Add => do
      let (right, s) ← pop_stack s
      let (left, s) ← pop_stack s
      let result ← add_values left right
      let s ← push_stack s result
      .ok (advancePc s frame rest)
  | .Subtract => do
      let (right, s) ← pop_stack s
      let (left, s) ← pop_stack s
      let result ← subtract_values left right
      let s ← push_stack s result
      .ok (advancePc s frame rest)
  | .Multiply => do
      let (right, s) ← pop_stack s
      let (left, s) ← pop_stack s
      let result ← multiply_values left right
      let s ← push_stack s result
      .ok (advancePc s frame rest)
  | .Divide => do
      let (right, s) ← pop_stack s
      let (left, s) ← pop_stack s
      let result ← divide_values left right
      let s ← push_stack s result
      .ok (advancePc s frame rest)
  | .Modulo => do
      let (right, s) ← pop_stack s
      let (left, s) ← pop_stack s
      let result ← modulo_values left right
      let s ← push_stack s result
      .ok (advancePc s frame rest)
  | .Power => do
      let (right, s) ← pop_stack s
      let (left, s) ← pop_stack s
      let result ← power_values left right
      let s ← push_stack s result
      .ok (advancePc s frame rest)
  | .Equal => do
      let (right, s) ← pop_stack s
      let (left, s) ← pop_stack s
      let s ← push_stack s (.Boolean (left.loose_equals right))
      .ok (advancePc s frame rest)
  | .StrictEqual => do
      let (right, s) ← pop_stack s
      let (left, s) ← pop_stack s
      let s ← push_stack s (.Boolean (left.strict_equals right))
      .ok (advancePc s frame rest)
  | .Less => do
      let (right, s) ← pop_stack s
      let (left, s) ← pop_stack s
      let left_num ← left.to_number
      let right_num ← right.to_number
      let s ← push_stack s (.Boolean (numLt left_num right_num))
      .ok (advancePc s frame rest)
  | .Greater => do
      let (right, s) ← pop_stack s
      let (left, s) ← pop_stack s
      let left_num ← left.to_number
      let right_num ← right.to_number
      let s ← push_stack s (.Boolean (numLt right_num left_num))
      .ok (advancePc s frame rest)
  | .LessEqual => do
      let (right, s) ← pop_stack s
      let (left, s) ← pop_stack s
      let left_num ← left.to_number
      let right_num ← right.to_number
      let s ← push_stack s (.Boolean (numLe left_num right_num))
      .ok (advancePc s frame rest)
  | .GreaterEqual => do
      let (right, s) ← pop_stack s
      let (left, s) ← pop_stack s
      let left_num ← left.to_number
      let right_num ← right.to_number
      let s ← push_stack s (.Boolean (numLe right_num left_num))
      .ok (advancePc s frame rest)
  | .LogicalAnd => do
      let (right, s) ← pop_stack s
      let (left, s) ← pop_stack s
      let result := if left.to_boolean then right else left
      let s ← push_stack s result
      .ok (advancePc s frame rest)
  | .LogicalOr => do
      let (right, s) ← pop_stack s
      let (left, s) ← pop_stack s
      let result := if left.to_boolean then left else right
      let s ← push_stack s result
      .ok (advancePc s frame rest)
  | .LogicalNot => do
      let (value, s) ← pop_stack s
      let s ← push_stack s (.Boolean (!value.to_boolean))
      .ok (advancePc s frame rest)
  | .Jump offset =>
      .ok (.state { s with call_stack :=
        { frame with pc := ((frame.pc : Int) + offset + 1).toNat } :: rest })
  | .JumpIfFalse offset => do
      let (condition, s) ← pop_stack s
      if !condition.to_boolean then
        .ok (.state { s with call_stack :=
          { frame with pc := ((frame.pc : Int) + offset + 1).toNat } :: rest })
      else
        .ok (advancePc s frame rest)
  | .JumpIfTrue offset => do
      let (condition, s) ← pop_stack s
      if condition.to_boolean then
        .ok (.state { s with call_stack :=
          { frame with pc := ((frame.pc : Int) + offset + 1).toNat } :: rest })
      else
        .ok (advancePc s frame rest)
  | .Call arg_count => do
      let s ← handle_function_call s arg_count
      .ok (.state s)
  | .Return =>
      let popped : Value × VmState :=
        match s.stack with
        | [] => (.Undefined, s)
        | v :: r => (v, { s with stack := r })
      let return_value := popped.1
      let s := popped.2
      let s := { s with
        call_stack := rest
        stack := s.stack.drop (s.stack.length - frame.base_stack_offset) }
      match s.call_stack with
      | [] => .ok (.ret return_value)
      | caller :: rr => do
          let s ← push_stack s return_value
          .ok (.state { s with call_stack := { caller with pc := caller.pc + 1 } :: rr })
  | .NewObject => do
      let res := allocate s.gc (.Object [])
      let s := { s with gc := res.2 }
      let s ← push_stack s (.Object res.1)
      .ok (advancePc s frame rest)
  | .NewArray size => do
      let (elements, s) ← popHandles s size
      let elements := elements.reverse
      let res := allocate s.gc (.Array elements)
      let s := { s with gc := res.2 }
      let s ← push_stack s (.Object res.1)
      .ok (advancePc s frame rest)
  | .Pop => do
      let (_, s) ← pop_stack s
      .ok (advancePc s frame rest)
  | .Duplicate => do
      let value ← peek_stack s 0
      let s ← push_stack s value
      .ok (advancePc s frame rest)
  | .Halt =>
      .ok (.ret (match s.stack with
        | v :: _ => v
        | [] => .Undefined))
  | _ => .error (.InvalidBytecode "Unimplemented instruction")

/-- Result of one iteration of the interpreter loop. -/
inductive StepRes : Type where
  | next (s : VmState)
  | done (v : Value)
  | err (e : RuntimeError)

/-- One iteration of `VirtualMachine::run_interpreter_loop`: fetch (the
out-of-range test and the indexing are merged into one `[·]?` lookup),
dispatch, then the loop's trailing operand-stack and call-depth overflow
checks. -/
def runInterpreterStep (s : VmState) : StepRes :=
  match s.call_stack with
  | [] => .err (.InvalidOperation "No call frame")
  | frame :: rest =>
      match frame.bytecode.instructions[frame.pc]? with
      | none =>
          .done (match s.stack with
            | v :: _ => v
            | [] => .Undefined)
      | some instruction =>
          match stepInstr s frame rest instruction with
          | .error e => .err e
          | .ok (.ret v) => .done v
          | .ok (.state s') =>
              if s'.stack.length > s'.max_stack_size then .err .StackOverflow
              else if s'.call_stack.length > s'.max_call_depth then .err .StackOverflow
              else .next s'

/-- The interpreter loop, bounded by fuel; `none` means the fuel ran out
(the Rust loop would keep running). -/
def runVm : Nat → VmState → Option (Except RuntimeError Value)
  | 0, _ => none
  | fuel + 1, s =>
      match runInterpreterStep s with
      | .done v => some (.ok v)
      | .err e => some (.error e)
      | .next s' => runVm fuel s'

/-- The `VirtualMachine::execute`: push a fresh frame for the unit and run the
loop (the final frame-pop cleanup does not affect the returned value). -/
def execute (fuel : Nat) (vm : VmState) (bytecode : Bytecode) :
    Option (Except RuntimeError Value) :=
  let frame : CallFrame :=
    { bytecode := bytecode
      pc := 0
      locals := []
      base_stack_offset := vm.stack.length }
  runVm fuel { vm with call_stack := frame :: vm.call_stack }

/-! ## Syntax tree and compiler (`crates/bebion-parser/src/ast.rs`,
`crates/bebion-compiler/src/compiler.rs`)

The embedded `AstNode` covers the statement and expression variants the
claims evaluate; every other Rust variant reaches the compiler's catch-all
`UnsupportedFeature` arms, which the embedding keeps as its own catch-all
arms.  The optional source-location fields (`loc`, dropped by the parser as
`None` in all the relevant nodes) are omitted. -/

/-- The `enum VarKind`. -/
inductive VarKind : Type where
  | Var
  | Let
  | Const
  deriving DecidableEq, Repr

/-- The `enum LiteralValue`. -/
inductive LiteralValue : Type where
  | String (s : Str)
  | Number (n : NumV)
  | Boolean (b : Bool)
  | Null
  | Undefined
  | RegExp (pattern flags : Str)
  deriving DecidableEq, Repr

/-- The `enum AstNode` (the subset described above). -/
inductive AstNode : Type where
  | ExpressionStatement (expression : AstNode)
  | BlockStatement (body : List AstNode)
  | VariableDeclaration (declarations : List AstNode) (kind : VarKind)
  | ThrowStatement (argument : AstNode)
  | TryStatement (block : AstNode) (handler : Option AstNode) (finalizer : Option AstNode)
  | Identifier (name : Str)
  | Literal (value : LiteralValue) (raw : Str)
  | VariableDeclarator (id : AstNode) (init : Option AstNode)
  | CatchClause (param : Option AstNode) (body : AstNode)

/-- The `enum SourceType`. -/
inductive SourceType : Type where
  | Script
  | Module
  deriving DecidableEq, Repr

/-- The `struct Program`. -/
structure Program : Type where
  body : List AstNode
  source_type : SourceType

/-- The `enum CompileError` (`crates/bebion-compiler/src/lib.rs`); payloads keep
the static part of the Rust messages. -/
inductive CompileError : Type where
  | UnsupportedFeature (msg : String)
  | InternalError (msg : String)
  | InvalidSyntax (msg : String)
  deriving DecidableEq, Repr

/-- Outcome channel of the embedded compiler: an ordinary `CompileError`
(`Err` in Rust), a panic (kept distinct because aborting and returning an
error are different behaviours), or the out-of-fuel artifact of the
embedding's structural recursion (unreachable when the fuel is at least the
recursion depth, as in `compile` below). -/
inductive CompFail : Type where
  | err (e : CompileError)
  | panicked (msg : String)
  | fuelExhausted
  deriving DecidableEq, Repr

/-- The `struct Variable`. -/
structure Variable : Type where
  index : Nat
  kind : VarKind
  is_captured : Bool
  deriving DecidableEq, Repr

/-- The `struct Scope` (the Rust field `variables` is a reserved word in Lean
and is embedded as `vars`). -/
structure Scope : Type where
  vars : List (String × Variable)
  depth : Nat
  deriving DecidableEq, Repr

/-- The `struct LoopInfo`. -/
structure LoopInfo : Type where
  break_jumps : List Nat
  continue_jumps : List Nat
  deriving DecidableEq, Repr

/-- The `struct Compiler`.  The scope stack is a `Vec` with the innermost scope
last; it is modelled with the innermost scope at the head. -/
structure CompilerSt : Type where
  scopes : List Scope
  loop_stack : List LoopInfo
  function_depth : Nat
  deriving DecidableEq, Repr

/-- The `Compiler::new`. -/
def compilerNew : CompilerSt where
  scopes := [{ vars := [], depth := 0 }]
  loop_stack := []
  function_depth := 0

/-- The `Compiler::begin_scope`. -/
def begin_scope (c : CompilerSt) : CompilerSt :=
  let depth := (c.scopes.head?.map (fun s => s.depth + 1)).getD 0
  { c with scopes := { vars := [], depth := depth } :: c.scopes }

/-- The `Compiler::end_scope` (`Vec::pop`; a no-op on an empty stack). -/
def end_scope (c : CompilerSt) : CompilerSt :=
  { c with scopes := c.scopes.tail }

/-- The `Compiler::declare_variable`. -/
def declare_variable (c : CompilerSt) (name : String) (kind : VarKind) :
    Except CompFail (Nat × CompilerSt) :=
  match c.scopes with
  | [] => .error (.err (.InternalError "No scope available"))
  | scope :: rest =>
      let index := scope.vars.length
      let var : Variable := { index := index, kind := kind, is_captured := false }
      .ok (index, { c with
        scopes := { scope with
          vars := alistInsert scope.vars name var } :: rest })

/-- The `Compiler::resolve_variable`: walk the scopes from innermost outward. -/
def resolve_variable (c : CompilerSt) (name : String) : Option Variable :=
  c.scopes.findSome? (fun scope => alistLookup scope.vars name)

/-- The `Bytecode::patch_jump` as used from the compiler, where a panic aborts
the compilation. -/
def patchJumpC (b : Bytecode) (jump_index target_index : Nat) :
    Except CompFail Bytecode :=
  match b.patch_jump jump_index target_index with
  | .ok b => .ok b
  | .error msg => .error (.panicked msg)

/-- The `Compiler::compile_identifier`. -/
def compile_identifier (c : CompilerSt) (name : String) (b : Bytecode) :
    Except CompFail (CompilerSt × Bytecode) :=
  match resolve_variable c name with
  | some var =>
      if var.index < 256 then .ok (c, (b.emit (.LoadLocal var.index)).1)
      else .error (.err (.InternalError "Too many local variables"))
  | none =>
      let res := b.add_name name
      .ok (c, (res.1.emit (.LoadGlobal res.2)).1)

/-- The `Compiler::compile_expression` (subset; see the `AstNode` note). -/
def compile_expression (c : CompilerSt) (expr : AstNode) (b : Bytecode) :
    Except CompFail (CompilerSt × Bytecode) :=
  match expr with
  | .Identifier name => compile_identifier c name b
  | .Literal value _raw =>
      let constant := match value with
        | .String s => Constant.String s
        | .Number n => Constant.Number n
        | .Boolean bv => Constant.Boolean bv
        | .Null => Constant.Null
        | .Undefined => Constant.Undefined
        | .RegExp pattern flags => Constant.String ("/" ++ pattern ++ "/" ++ flags)
      let res := b.add_constant constant
      .ok (c, (res.1.emit (.LoadConstant res.2)).1)
  | _ => .error (.err (.UnsupportedFeature "Expression"))

/-- The `Compiler::compile_variable_declarator`.  A declarator whose shape does
not match (`if let` in Rust) compiles to nothing, successfully. -/
def compile_variable_declarator (c : CompilerSt) (decl : AstNode) (kind : VarKind)
    (b : Bytecode) : Except CompFail (CompilerSt × Bytecode) :=
  match decl with
  | .VariableDeclarator id init =>
      match id with
      | .Identifier name => do
          let (c, b) ←
            match init with
            | some init_expr => compile_expression c init_expr b
            | none =>
                let res := b.add_constant .Undefined
                Except.ok (c, (res.1.emit (.LoadConstant res.2)).1)
          let (var_index, c) ← declare_variable c name kind
          let instruction := match kind with
            | .Var => Instruction.DeclareVar var_index
            | .Let => Instruction.DeclareLet var_index
            | .Const => Instruction.DeclareConst var_index
          .ok (c, (b.emit instruction).1)
      | _ => .ok (c, b)
  | _ => .ok (c, b)

mutual

/-- The `Compiler::compile_statement`.  The statement-level compiler functions
are mutually recursive through `AstNode`; the recursion is made structural
(hence executable by the kernel) with an explicit `fuel` counter, decremented
once per nested call.  The recursion depth is bounded by `sizeOf` of the
node, so any fuel of at least that size behaves exactly like the Rust
recursion and the `fuelExhausted` artifact is unreachable. -/
def compile_statement (fuel : Nat) (c : CompilerSt) (stmt : AstNode) (b : Bytecode) :
    Except CompFail (CompilerSt × Bytecode) :=
  match fuel with
  | 0 => .error .fuelExhausted
  | fuel + 1 =>
    match stmt with
    | .ExpressionStatement expression => do
        let (c, b) ← compile_expression c expression b
        .ok (c, (b.emit .Pop).1)
    | .VariableDeclaration declarations kind =>
        compile_declarator_list fuel c declarations kind b
    | .BlockStatement body => do
        let c := begin_scope c
        let (c, b) ← compile_statement_list fuel c body b
        .ok (end_scope c, b)
    | .ThrowStatement argument => do
        let (c, b) ← compile_expression c argument b
        .ok (c, (b.emit .Throw).1)
    | .TryStatement block handler finalizer =>
        compile_try_statement fuel c block handler finalizer b
    | _ => .error (.err (.UnsupportedFeature "Statement"))

/-- The `for statement in &program.body`-style folds of the compiler. -/
def compile_statement_list (fuel : Nat) (c : CompilerSt) (stmts : List AstNode)
    (b : Bytecode) : Except CompFail (CompilerSt × Bytecode) :=
  match fuel with
  | 0 => .error .fuelExhausted
  | fuel + 1 =>
    match stmts with
    | [] => .ok (c, b)
    | stmt :: rest => do
        let (c, b) ← compile_statement fuel c stmt b
        compile_statement_list fuel c rest b

/-- The declarator loop of the `VariableDeclaration` arm. -/
def compile_declarator_list (fuel : Nat) (c : CompilerSt) (decls : List AstNode)
    (kind : VarKind) (b : Bytecode) : Except CompFail (CompilerSt × Bytecode) :=
  match fuel with
  | 0 => .error .fuelExhausted
  | fuel + 1 =>
    match decls with
    | [] => .ok (c, b)
    | decl :: rest => do
        let (c, b) ← compile_variable_declarator c decl kind b
        compile_declarator_list fuel c rest kind b

/-- The `Compiler::compile_try_statement`.  Note the call
`bytecode.patch_jump(try_begin, catch_start)`: `try_begin` indexes the
`TryBegin(0)` instruction, which `patch_jump` refuses to patch. -/
def compile_try_statement (fuel : Nat) (c : CompilerSt) (block : AstNode)
    (handler finalizer : Option AstNode) (b : Bytecode) :
    Except CompFail (CompilerSt × Bytecode) :=
  match fuel with
  | 0 => .error .fuelExhausted
  | fuel + 1 => do
    let res := b.emit (.TryBegin 0)
    let b := res.1
    let try_begin := res.2
    let (c, b) ← compile_statement fuel c block b
    let b := (b.emit .TryEnd).1
    let res := b.emit (.Jump 0)
    let b := res.1
    let try_end_jump := res.2
    let catch_start := b.len
    let b ← patchJumpC b try_begin catch_start
    let (c, b) ←
      match handler with
      | some catch_clause =>
          match catch_clause with
          | .CatchClause param body => do
              let b := (b.emit .CatchBegin).1
              let (c, b) ←
                match param with
                | some param_node =>
                    match param_node with
                    | .Identifier name => do
                        let (var_index, c) ← declare_variable c name .Let
                        Except.ok (c, (b.emit (.StoreLocal var_index)).1)
                    | _ => Except.ok (c, b)
                | none => Except.ok (c, b)
              let (c, b) ← compile_statement fuel c body b
              Except.ok (c, (b.emit .CatchEnd).1)
          | _ => Except.ok (c, b)
      | none => Except.ok (c, b)
    let catch_end := b.len
    let b ← patchJumpC b try_end_jump catch_end
    match finalizer with
    | some finally_stmt => do
        let b := (b.emit .FinallyBegin).1
        let (c, b) ← compile_statement fuel c finally_stmt b
        .ok (c, (b.emit .FinallyEnd).1)
    | none => .ok (c, b)

end

/-- The `Compiler::compile`: lower every top-level statement, append `Halt`,
run the peephole optimizer.  Any `fuel` of at least the syntax tree's
nesting depth (for instance its node count) makes the structural recursion
mirror the Rust recursion exactly; `.fuelExhausted` is then unreachable. -/
def compile (fuel : Nat) (c : CompilerSt) (program : Program) :
    Except CompFail Bytecode := do
  let (_, b) ← compile_statement_list fuel c program.body Bytecode.new
  let b := (b.emit .Halt).1
  .ok b.optimize

/-! ## Lexer (`crates/bebion-parser/src/lexer.rs`) -/

/-- The `enum ParseError` (`crates/bebion-parser/src/lib.rs`). -/
inductive ParseError : Type where
  | UnexpectedToken (expected found : String) (line column : Nat)
  | SyntaxError (message : String) (line column : Nat)
  | LexicalError (message : String) (line column : Nat)
  deriving DecidableEq, Repr

/-- Failure channel of the embedded lexer: a real `ParseError`, or the
out-of-fuel artifact of the embedding's structural loops (unreachable for
the fuel values used below, which dominate the loop trip counts). -/
inductive LexFail : Type where
  | err (e : ParseError)
  | fuelExhausted
  deriving DecidableEq, Repr

/-- The `enum TokenType`. -/
inductive TokenType : Type where
  | Identifier (s : Str)
  | StringLiteral (s : Str)
  | NumericLiteral (n : NumV)
  | BooleanLiteral (b : Bool)
  | NullLiteral
  | UndefinedLiteral
  | RegExpLiteral (pattern flags : Str)
  | Break
  | Case
  | Catch
  | Class
  | Const
  | Continue
  | Debugger
  | Default
  | Delete
  | Do
  | Else
  | Export
  | Extends
  | Finally
  | For
  | Function
  | If
  | Import
  | In
  | InstanceOf
  | Let
  | New
  | Return
  | Super
  | Switch
  | This
  | Throw
  | Try
  | TypeOf
  | Var
  | Void
  | While
  | With
  | Yield
  | Async
  | Await
  | Static
  | Plus
  | Minus
  | Multiply
  | Divide
  | Modulo
  | Power
  | Assign
  | PlusAssign
  | MinusAssign
  | MultiplyAssign
  | DivideAssign
  | ModuloAssign
  | PowerAssign
  | Equal
  | NotEqual
  | StrictEqual
  | StrictNotEqual
  | Less
  | Greater
  | LessEqual
  | GreaterEqual
  | LogicalAnd
  | LogicalOr
  | LogicalNot
  | NullishCoalescing
  | BitwiseAnd
  | BitwiseOr
  | BitwiseXor
  | BitwiseNot
  | LeftShift
  | RightShift
  | UnsignedRightShift
  | Increment
  | Decrement
  | LeftParen
  | RightParen
  | LeftBrace
  | RightBrace
  | LeftBracket
  | RightBracket
  | Semicolon
  | Comma
  | Dot
  | QuestionMark
  | Colon
  | Arrow
  | Spread
  | TemplateHead
  | TemplateMiddle
  | TemplateTail
  | TemplateNoSubstitution
  | EOF
  | Newline
  | Whitespace
  deriving Repr

/-- The `struct Token`.  The Rust field `end` is a reserved word in Lean and is
embedded as `end_pos`. -/
structure Token : Type where
  token_type : TokenType
  lexeme : Str
  line : Nat
  column : Nat
  start : Nat
  end_pos : Nat
  deriving Repr

/-- The `struct Lexer` (the keyword `HashMap`, filled once in `Lexer::new`, is
the fixed function `keywordLookup` below). -/
structure LexState : Type where
  input : List Char
  position : Nat
  line : Nat
  column : Nat
  deriving DecidableEq, Repr

/-- The `Lexer::new`. -/
def lexerNew (input : String) : LexState where
  input := input.toList
  position := 0
  line := 1
  column := 1

/-- The keyword table built in `Lexer::new`. -/
def keywordLookup : String → Option TokenType
  | "break" => some .Break
  | "case" => some .Case
  | "catch" => some .Catch
  | "class" => some .Class
  | "const" => some .Const
  | "continue" => some .Continue
  | "debugger" => some .Debugger
  | "default" => some .Default
  | "delete" => some .Delete
  | "do" => some .Do
  | "else" => some .Else
  | "export" => some .Export
  | "extends" => some .Extends
  | "finally" => some .Finally
  | "for" => some .For
  | "function" => some .Function
  | "if" => some .If
  | "import" => some .Import
  | "in" => some .In
  | "instanceof" => some .InstanceOf
  | "let" => some .Let
  | "new" => some .New
  | "return" => some .Return
  | "super" => some .Super
  | "switch" => some .Switch
  | "this" => some .This
  | "throw" => some .Throw
  | "try" => some .Try
  | "typeof" => some .TypeOf
  | "var" => some .Var
  | "void" => some .Void
  | "while" => some .While
  | "with" => some .With
  | "yield" => some .Yield
  | "async" => some .Async
  | "await" => some .Await
  | "static" => some .Static
  | "true" => some (.BooleanLiteral true)
  | "false" => some (.BooleanLiteral false)
  | "null" => some .NullLiteral
  | "undefined" => some .UndefinedLiteral
  | _ => none

/-- The backquote character (written by code point to keep the source free
of backtick characters). -/
def backquote : Char := Char.ofNat 96

/-- The `Lexer::is_at_end`. -/
def isAtEnd (l : LexState) : Bool := l.position ≥ l.input.length

/-- The `Lexer::advance`: returns `'\0'` at the end of input, else the current
character, bumping `position` and `column`. -/
def advanceCh (l : LexState) : Char × LexState :=
  if l.position ≥ l.input.length then ('\x00', l)
  else (l.input.getD l.position '\x00',
    { l with position := l.position + 1, column := l.column + 1 })

/-- The `Lexer::peek`. -/
def peekCh (l : LexState) : Char :=
  if l.position ≥ l.input.length then '\x00' else l.input.getD l.position '\x00'

/-- The `Lexer::peek_ahead`. -/
def peekAhead (l : LexState) (offset : Nat) : Char :=
  if l.position + offset ≥ l.input.length then '\x00'
  else l.input.getD (l.position + offset) '\x00'

/-- The `Lexer::make_token` (the token's `end` is the current position). -/
def make_token (l : LexState) (token_type : TokenType) (lexeme : Str)
    (line column start : Nat) : Token :=
  { token_type := token_type
    lexeme := lexeme
    line := line
    column := column
    start := start
    end_pos := l.position }

/-- Loop body of `Lexer::skip_whitespace`. -/
def skipWsGo : Nat → LexState → LexState
  | 0, l => l
  | fuel + 1, l =>
      if !(isAtEnd l) && (peekCh l == ' ' || peekCh l == '\t' || peekCh l == '\r') then
        skipWsGo fuel (advanceCh l).2
      else l

/-- The `Lexer::skip_whitespace`. -/
def skip_whitespace (l : LexState) : LexState :=
  skipWsGo (l.input.length + 1) l

/-- Loop body of `Lexer::skip_line_comment`. -/
def skipLineCommentGo : Nat → LexState → LexState
  | 0, l => l
  | fuel + 1, l =>
      if !(isAtEnd l) && peekCh l != '\n' then
        skipLineCommentGo fuel (advanceCh l).2
      else l

/-- The `Lexer::skip_line_comment`. -/
def skip_line_comment (l : LexState) : LexState :=
  skipLineCommentGo (l.input.length + 1) l

/-- Loop body of `Lexer::skip_block_comment`. -/
def skipBlockCommentGo : Nat → LexState → Except LexFail LexState
  | 0, _ => .error .fuelExhausted
  | fuel + 1, l =>
      if !(isAtEnd l) then
        if peekCh l == '*' && peekAhead l 1 == '/' then
          .ok (advanceCh (advanceCh l).2).2
        else
          let l := if peekCh l == '\n' then { l with line := l.line + 1, column := 0 } else l
          skipBlockCommentGo fuel (advanceCh l).2
      else
        .error (.err (.LexicalError "Unterminated block comment" l.line l.column))

/-- The `Lexer::skip_block_comment` (first consumes the `'*'`). -/
def skip_block_comment (l : LexState) : Except LexFail LexState :=
  let l := (advanceCh l).2
  skipBlockCommentGo (l.input.length + 1) l

/-- The escape-processing scan loop of `Lexer::string_literal`, accumulating
the decoded `value`. -/
def stringLitGo : Nat → LexState → Char → List Char → Except LexFail (List Char × LexState)
  | 0, _, _, _ => .error .fuelExhausted
  | fuel + 1, l, quote, value =>
      if !(isAtEnd l) && peekCh l != quote then
        if peekCh l == '\n' then
          .error (.err (.LexicalError "Unterminated string literal" l.line l.column))
        else if peekCh l == '\\' then
          let l := (advanceCh l).2
          let res := advanceCh l
          let escaped := res.1
          let l := res.2
          let value := value ++ (match escaped with
            | 'n' => ['\n']
            | 't' => ['\t']
            | 'r' => ['\r']
            | '\\' => ['\\']
            | '\'' => ['\'']
            | '"' => ['"']
            | '0' => ['\x00']
            | c => ['\\', c])
          stringLitGo fuel l quote value
        else
          let res := advanceCh l
          stringLitGo fuel res.2 quote (value ++ [res.1])
      else .ok (value, l)

/-- The `Lexer::string_literal`.  Note the produced token: its `token_type`
carries the decoded value, and its `lexeme` is the decoded value re-quoted
(`format!("{}{}{}", quote, value, quote)`), not the raw source slice. -/
def string_literal (l : LexState) (quote : Char)
    (start_line start_column start_pos : Nat) : Except LexFail (Token × LexState) := do
  let (value, l) ← stringLitGo (l.input.length + 1) l quote []
  if isAtEnd l then
    .error (.err (.LexicalError "Unterminated string literal" start_line start_column))
  else
    let l := (advanceCh l).2
    let lexeme := String.mk ([quote] ++ value ++ [quote])
    .ok ({ token_type := .StringLiteral (String.mk value)
           lexeme := lexeme
           line := start_line
           column := start_column
           start := start_pos
           end_pos := l.position }, l)

/-- The scan loop of `Lexer::template_literal`. -/
def templateLitGo : Nat → LexState → List Char → Except LexFail (List Char × LexState)
  | 0, _, _ => .error .fuelExhausted
  | fuel + 1, l, value =>
      if !(isAtEnd l) && peekCh l != backquote then
        let l := if peekCh l == '\n' then { l with line := l.line + 1, column := 0 } else l
        let res := advanceCh l
        templateLitGo fuel res.2 (value ++ [res.1])
      else .ok (value, l)

/-- The `Lexer::template_literal` (no substitutions; one verbatim token). -/
def template_literal (l : LexState)
    (start_line start_column start_pos : Nat) : Except LexFail (Token × LexState) := do
  let (value, l) ← templateLitGo (l.input.length + 1) l []
  if isAtEnd l then
    .error (.err (.LexicalError "Unterminated template literal" start_line start_column))
  else
    let l := (advanceCh l).2
    let lexeme := String.mk ([backquote] ++ value ++ [backquote])
    .ok ({ token_type := .TemplateNoSubstitution
           lexeme := lexeme
           line := start_line
           column := start_column
           start := start_pos
           end_pos := l.position }, l)

/-- The digits-and-dot loop of `Lexer::numeric_literal`. -/
def numDigitsGo : Nat → LexState → List Char → List Char × LexState
  | 0, l, acc => (acc, l)
  | fuel + 1, l, acc =>
      if !(isAtEnd l) && (Char.isDigit (peekCh l) || peekCh l == '.') then
        let res := advanceCh l
        numDigitsGo fuel res.2 (acc ++ [res.1])
      else (acc, l)

/-- The exponent-digits loop of `Lexer::numeric_literal`. -/
def numExpDigitsGo : Nat → LexState → List Char → List Char × LexState
  | 0, l, acc => (acc, l)
  | fuel + 1, l, acc =>
      if !(isAtEnd l) && Char.isDigit (peekCh l) then
        let res := advanceCh l
        numExpDigitsGo fuel res.2 (acc ++ [res.1])
      else (acc, l)

/-- The `Lexer::numeric_literal`: first steps `position` and `column` back to
re-include the already-consumed first digit, then scans digits, an optional
dot-run and an optional exponent, and parses the lexeme as `f64`. -/
def numeric_literal (l : LexState)
    (start_line start_column start_pos : Nat) : Except LexFail (Token × LexState) :=
  let l := { l with position := l.position - 1, column := l.column - 1 }
  let res := numDigitsGo (l.input.length + 1) l []
  let lexeme := res.1
  let l := res.2
  let (lexeme, l) :=
    if !(isAtEnd l) && (peekCh l == 'e' || peekCh l == 'E') then
      let res := advanceCh l
      let lexeme := lexeme ++ [res.1]
      let l := res.2
      let (lexeme, l) :=
        if !(isAtEnd l) && (peekCh l == '+' || peekCh l == '-') then
          let res := advanceCh l
          (lexeme ++ [res.1], res.2)
        else (lexeme, l)
      let res := numExpDigitsGo (l.input.length + 1) l lexeme
      (res.1, res.2)
    else (lexeme, l)
  match rustParseFloat (String.mk lexeme) with
  | none =>
      .error (.err (.LexicalError "Invalid numeric literal" start_line start_column))
  | some value =>
      .ok ({ token_type := .NumericLiteral value
             lexeme := String.mk lexeme
             line := start_line
             column := start_column
             start := start_pos
             end_pos := l.position }, l)

/-- The scan loop of `Lexer::identifier_or_keyword`.  Rust uses the Unicode
`char::is_alphanumeric`; the embedding uses `Char.isAlphanum` (ASCII), which
agrees on every input evaluated below. -/
def identGo : Nat → LexState → List Char → List Char × LexState
  | 0, l, acc => (acc, l)
  | fuel + 1, l, acc =>
      if !(isAtEnd l) && (Char.isAlphanum (peekCh l) || peekCh l == '_' || peekCh l == '$') then
        let res := advanceCh l
        identGo fuel res.2 (acc ++ [res.1])
      else (acc, l)

/-- The `Lexer::identifier_or_keyword` (also steps back to re-include the first
character, then reclassifies by the keyword table). -/
def identifier_or_keyword (l : LexState)
    (start_line start_column start_pos : Nat) : Except LexFail (Token × LexState) :=
  let l := { l with position := l.position - 1, column := l.column - 1 }
  let res := identGo (l.input.length + 1) l []
  let lexeme := String.mk res.1
  let l := res.2
  let token_type := (keywordLookup lexeme).getD (.Identifier lexeme)
  .ok ({ token_type := token_type
         lexeme := lexeme
         line := start_line
         column := start_column
         start := start_pos
         end_pos := l.position }, l)

/-- The `Lexer::next_token`.  The fuel bounds the self-recursion after a skipped
comment (each recursion consumes at least two characters, so any fuel above
the remaining input length is enough).  Rust `char::is_alphabetic` is
embedded as `Char.isAlpha`. -/
def next_token : Nat → LexState → Except LexFail (Token × LexState)
  | 0, _ => .error .fuelExhausted
  | fuel + 1, l =>
    let start_pos := l.position
    let start_line := l.line
    let start_column := l.column
    let res := advanceCh l
    let ch := res.1
    let l := res.2
    match ch with
    | ' ' | '\t' | '\r' =>
        let l := skip_whitespace l
        .ok ({ token_type := .Whitespace
               lexeme := " "
               line := start_line
               column := start_column
               start := start_pos
               end_pos := l.position }, l)
    | '\n' =>
        let l := { l with line := l.line + 1, column := 1 }
        .ok ({ token_type := .Newline
               lexeme := "\n"
               line := start_line
               column := start_column
               start := start_pos
               end_pos := l.position }, l)
    | '/' =>
        if peekCh l == '/' then
          let l := skip_line_comment l
          next_token fuel l
        else if peekCh l == '*' then do
          let l ← skip_block_comment l
          next_token fuel l
        else if peekCh l == '=' then
          let l := (advanceCh l).2
          .ok (make_token l .DivideAssign "/=" start_line start_column start_pos, l)
        else
          .ok (make_token l .Divide "/" start_line start_column start_pos, l)
    | '+' =>
        if peekCh l == '+' then
          let l := (advanceCh l).2
          .ok (make_token l .Increment "++" start_line start_column start_pos, l)
        else if peekCh l == '=' then
          let l := (advanceCh l).2
          .ok (make_token l .PlusAssign "+=" start_line start_column start_pos, l)
        else
          .ok (make_token l .Plus "+" start_line start_column start_pos, l)
    | '-' =>
        if peekCh l == '-' then
          let l := (advanceCh l).2
          .ok (make_token l .Decrement "--" start_line start_column start_pos, l)
        else if peekCh l == '=' then
          let l := (advanceCh l).2
          .ok (make_token l .MinusAssign "-=" start_line start_column start_pos, l)
        else
          .ok (make_token l .Minus "-" start_line start_column start_pos, l)
    | '*' =>
        if peekCh l == '*' then
          let l := (advanceCh l).2
          if peekCh l == '=' then
            let l := (advanceCh l).2
            .ok (make_token l .PowerAssign "**=" start_line start_column start_pos, l)
          else
            .ok (make_token l .Power "**" start_line start_column start_pos, l)
        else if peekCh l == '=' then
          let l := (advanceCh l).2
          .ok (make_token l .MultiplyAssign "*=" start_line start_column start_pos, l)
        else
          .ok (make_token l .Multiply "*" start_line start_column start_pos, l)
    | '=' =>
        if peekCh l == '=' then
          let l := (advanceCh l).2
          if peekCh l == '=' then
            let l := (advanceCh l).2
            .ok (make_token l .StrictEqual "===" start_line start_column start_pos, l)
          else
            .ok (make_token l .Equal "==" start_line start_column start_pos, l)
        else if peekCh l == '>' then
          let l := (advanceCh l).2
          .ok (make_token l .Arrow "=>" start_line start_column start_pos, l)
        else
          .ok (make_token l .Assign "=" start_line start_column start_pos, l)
    | '!' =>
        if peekCh l == '=' then
          let l := (advanceCh l).2
          if peekCh l == '=' then
            let l := (advanceCh l).2
            .ok (make_token l .StrictNotEqual "!==" start_line start_column start_pos, l)
          else
            .ok (make_token l .NotEqual "!=" start_line start_column start_pos, l)
        else
          .ok (make_token l .LogicalNot "!" start_line start_column start_pos, l)
    | '<' =>
        if peekCh l == '=' then
          let l := (advanceCh l).2
          .ok (make_token l .LessEqual "<=" start_line start_column start_pos, l)
        else if peekCh l == '<' then
          let l := (advanceCh l).2
          .ok (make_token l .LeftShift "<<" start_line start_column start_pos, l)
        else
          .ok (make_token l .Less "<" start_line start_column start_pos, l)
    | '>' =>
        if peekCh l == '=' then
          let l := (advanceCh l).2
          .ok (make_token l .GreaterEqual ">=" start_line start_column start_pos, l)
        else if peekCh l == '>' then
          let l := (advanceCh l).2
          if peekCh l == '>' then
            let l := (advanceCh l).2
            .ok (make_token l .UnsignedRightShift ">>>" start_line start_column start_pos, l)
          else
            .ok (make_token l .RightShift ">>" start_line start_column start_pos, l)
        else
          .ok (make_token l .Greater ">" start_line start_column start_pos, l)
    | '&' =>
        if peekCh l == '&' then
          let l := (advanceCh l).2
          .ok (make_token l .LogicalAnd "&&" start_line start_column start_pos, l)
        else
          .ok (make_token l .BitwiseAnd "&" start_line start_column start_pos, l)
    | '|' =>
        if peekCh l == '|' then
          let l := (advanceCh l).2
          .ok (make_token l .LogicalOr "||" start_line start_column start_pos, l)
        else
          .ok (make_token l .BitwiseOr "|" start_line start_column start_pos, l)
    | '?' =>
        if peekCh l == '?' then
          let l := (advanceCh l).2
          .ok (make_token l .NullishCoalescing "??" start_line start_column start_pos, l)
        else
          .ok (make_token l .QuestionMark "?" start_line start_column start_pos, l)
    | '(' => .ok (make_token l .LeftParen "(" start_line start_column start_pos, l)
    | ')' => .ok (make_token l .RightParen ")" start_line start_column start_pos, l)
    | '{' => .ok (make_token l .LeftBrace "\x7b" start_line start_column start_pos, l)
    | '}' => .ok (make_token l .RightBrace "\x7d" start_line start_column start_pos, l)
    | '[' => .ok (make_token l .LeftBracket "[" start_line start_column start_pos, l)
    | ']' => .ok (make_token l .RightBracket "]" start_line start_column start_pos, l)
    | ';' => .ok (make_token l .Semicolon ";" start_line start_column start_pos, l)
    | ',' => .ok (make_token l .Comma "," start_line start_column start_pos, l)
    | '.' =>
        if peekCh l == '.' && peekAhead l 1 == '.' then
          let l := (advanceCh (advanceCh l).2).2
          .ok (make_token l .Spread "..." start_line start_column start_pos, l)
        else
          .ok (make_token l .Dot "." start_line start_column start_pos, l)
    | ':' => .ok (make_token l .Colon ":" start_line start_column start_pos, l)
    | '^' => .ok (make_token l .BitwiseXor "^" start_line start_column start_pos, l)
    | '~' => .ok (make_token l .BitwiseNot "~" start_line start_column start_pos, l)
    | '%' =>
        if peekCh l == '=' then
          let l := (advanceCh l).2
          .ok (make_token l .ModuloAssign "%=" start_line start_column start_pos, l)
        else
          .ok (make_token l .Modulo "%" start_line start_column start_pos, l)
    | '"' => string_literal l ch start_line start_column start_pos
    | '\'' => string_literal l ch start_line start_column start_pos
    | c =>
        if c == backquote then
          template_literal l start_line start_column start_pos
        else if c.isDigit then
          numeric_literal l start_line start_column start_pos
        else if c.isAlpha || c == '_' || c == '$' then
          identifier_or_keyword l start_line start_column start_pos
        else
          .error (.err (.LexicalError "Unexpected character" start_line start_column))

/-- The `matches!(token.token_type, Whitespace | Newline)`. -/
def TokenType.isWsOrNewline : TokenType → Bool
  | .Whitespace => true
  | .Newline => true
  | _ => false

/-- The `while !self.is_at_end()` loop of `Lexer::tokenize`, dropping
whitespace and newline tokens. -/
def tokenizeGo : Nat → LexState → List Token → Except LexFail (List Token × LexState)
  | 0, _, _ => .error .fuelExhausted
  | fuel + 1, l, tokens =>
      if !(isAtEnd l) then do
        let (token, l) ← next_token (l.input.length + 1) l
        let tokens :=
          if token.token_type.isWsOrNewline then tokens else tokens ++ [token]
        tokenizeGo fuel l tokens
      else .ok (tokens, l)

/-- The `Lexer::tokenize`: the scan loop followed by the appended `EOF` token. -/
def tokenize (l : LexState) : Except LexFail (List Token) := do
  let (tokens, l) ← tokenizeGo (l.input.length + 1) l []
  .ok (tokens ++ [{ token_type := .EOF
                    lexeme := ""
                    line := l.line
                    column := l.column
                    start := l.position
                    end_pos := l.position }])

/-! ## Concrete programs and states evaluated by the claim theorems -/

/-- The syntax tree of the parseable program `try { } catch (e) { }`
(exactly what `Parser::try_statement` builds for it, locations omitted). -/
def tryProg : Program where
  body := [.TryStatement (.BlockStatement [])
    (some (.CatchClause (some (.Identifier "e")) (.BlockStatement []))) none]
  source_type := .Script

/-- The syntax tree of the parseable program `let a = 5;`. -/
def letProg : Program where
  body := [.VariableDeclaration
    [.VariableDeclarator (.Identifier "a") (some (.Literal (.Number (.num 5)) "5"))] .Let]
  source_type := .Script

/-- The bytecode the compiler produces for `let a = 5;`. -/
def letBc : Bytecode := .mk [.LoadConstant 0, .DeclareLet 0, .Halt] [.Number (.num 5)] [] []

/-- A collector holding one heap function object, at handle 1. -/
def fnCalleeGc : GcState := (allocate gcNew (.Function none [] [])).2

/-- A one-instruction unit dispatching `Call(0)`. -/
def callBc : Bytecode := .mk [.Call 0] [] [] []

/-- A VM about to dispatch `Call(0)` with the function object (handle 1) as
the callee on the operand stack. -/
def callSt : VmState :=
  { vmNew fnCalleeGc with
      stack := [.Object 1]
      call_stack := [{ bytecode := callBc, pc := 0, locals := [], base_stack_offset := 0 }] }

/-- A one-instruction unit dispatching `NewArray(2)`. -/
def newArrayBc : Bytecode := .mk [.NewArray 2] [] [] []

/-- A VM about to dispatch `NewArray(2)` with the two primitive number
values `2` and `3` on the operand stack (`3` on top, as after pushing the
elements in source order). -/
def newArraySt : VmState :=
  { vmNew gcNew with
      stack := [.Number (.num 3), .Number (.num 2)]
      call_stack := [{ bytecode := newArrayBc, pc := 0, locals := [], base_stack_offset := 0 }] }

/-- The four-character source `"\n"`: a double-quoted string literal whose
body is the two-character escape sequence backslash–`n`. -/
def c5src : String := "\"\\n\""

/-- Equality of the statistics fields that never change during marking,
sweeping and root bookkeeping (`total_allocations`, `total_collections`,
`bytes_freed`) together with `next_handle`. -/
def statsEq (s t : GcState) : Prop :=
  s.total_allocations = t.total_allocations ∧
  s.total_collections = t.total_collections ∧
  s.bytes_freed = t.bytes_freed ∧
  s.next_handle = t.next_handle

/-- Ordering of the three monotone statistics counters. -/
def stat3Le (s t : GcState) : Prop :=
  s.total_allocations ≤ t.total_allocations ∧
  s.total_collections ≤ t.total_collections ∧
  s.bytes_freed ≤ t.bytes_freed

/-- Every handle present in the object table is below `next_handle`. -/
def HandleInv (s : GcState) : Prop :=
  ∀ h, (alistLookup s.objects h).isSome = true → h < s.next_handle

/-! ## Claim theorems -/

/-- C1: the claim says `compile(parse(p))` succeeds for every parseable
program, and in particular that compiling a try/catch patches the
`TryBegin(0)` operand "without aborting".  Evaluating the embedded compiler
on the parseable program `try { } catch (e) { }` shows the opposite: the
call `patch_jump(try_begin, catch_start)` inside `compile_try_statement`
hits `patch_jump`'s non-jump arm and panics. -/
theorem c1_compile_try_catch_panics :
    compile 10 compilerNew tryProg =
      .error (.panicked "Attempted to patch non-jump instruction") := rfl

/-- C2: the claim says dispatching `Call(n)` on a heap function object
pushes a new call frame and continues there.  Evaluating the embedded VM on
a state whose callee (handle 1) is a heap function object shows that the
source instead returns `InvalidOperation("Function calls not fully
implemented")`. -/
theorem c2_call_on_function_object_errors :
    get_object_type fnCalleeGc 1 = some (.Function none [] []) ∧
    runInterpreterStep callSt =
      .err (.InvalidOperation "Function calls not fully implemented") :=
  ⟨rfl, rfl⟩

/-- C3: the claim says `DeclareVar`/`DeclareLet`/`DeclareConst` have no
runtime effect and execution proceeds, so compiled output of `let a = 5;`
does not fail on the declare opcode.  The embedded compiler does produce
`[LoadConstant 0, DeclareLet 0, Halt]` for `let a = 5;`, but the embedded
VM's dispatch has no arm for the declare opcodes: `DeclareLet` falls into
the catch-all and raises `InvalidBytecode("Unimplemented instruction")`. -/
theorem c3_declare_let_is_unimplemented :
    compile 10 compilerNew letProg = .ok letBc ∧
    execute 10 (vmNew gcNew) letBc =
      some (.error (.InvalidBytecode "Unimplemented instruction")) :=
  ⟨rfl, rfl⟩

/-- C4: the claim says `NewArray(n)` collects any `n` stacked values and
does not fail for primitive element values.  Evaluating the embedded VM on
`NewArray(2)` over the two primitive numbers `2` and `3` shows the source
raises `TypeError("Array elements must be objects")` instead. -/
theorem c4_new_array_rejects_primitives :
    runInterpreterStep newArraySt =
      .err (.TypeError "Array elements must be objects") := rfl

/-- C5: the claim says concatenating all token lexemes reproduces the
source minus whitespace and comments, string-literal escapes preserved.
Tokenizing the four-character source `"\n"` (no whitespace, no comments)
yields lexemes that concatenate to the three-character string
quote–linefeed–quote: `Lexer::string_literal` re-quotes the decoded value
instead of keeping the raw slice, so the escape sequence is lost. -/
theorem c5_lexeme_concat_loses_escapes :
    (tokenize (lexerNew c5src)).map (fun toks => String.join (toks.map Token.lexeme)) =
      .ok "\"\n\"" ∧ ("\"\n\"" : String) ≠ c5src :=
  ⟨rfl, by decide⟩

/-- C10: `update_object` returns `true` exactly when the handle refers to
an existing object, and on a missing handle it returns `false` leaving the
whole collector state unchanged. -/
theorem c10_update_object_missing_handle (s : GcState) (h : Nat) (t : GcObjectType) :
    ((update_object s h t).2 = true ↔ (alistLookup s.objects h).isSome = true) ∧
    (alistLookup s.objects h = none → update_object s h t = (s, false)) := by
  constructor
  · cases hl : alistLookup s.objects h <;> simp [update_object, hl]
  · intro hn
    simp [update_object, hn]

/-- Witness for C10 at the concrete input `(gcNew, 5, Null)`. -/
theorem c10_update_object_missing_handle_witness :
    alistLookup gcNew.objects 5 = none ∧ update_object gcNew 5 .Null = (gcNew, false) :=
  ⟨by decide, (c10_update_object_missing_handle gcNew 5 .Null).2 (by decide)⟩

/-- The `statsEq` is reflexive. -/
theorem statsEq_refl (s : GcState) : statsEq s s := ⟨rfl, rfl, rfl, rfl⟩

/-- The `statsEq` is transitive. -/
theorem statsEq_trans {a b c : GcState} (h1 : statsEq a b) (h2 : statsEq b c) :
    statsEq a c := by
  obtain ⟨x1, x2, x3, x4⟩ := h1
  obtain ⟨y1, y2, y3, y4⟩ := h2
  exact ⟨x1.trans y1, x2.trans y2, x3.trans y3, x4.trans y4⟩

/-- One sweep-removal step touches no statistics counter and no handle
counter. -/
theorem removeObjectsStep_statsEq (acc : GcState × Nat) (h : Nat) :
    statsEq (removeObjectsStep acc h).1 acc.1 := by
  unfold removeObjectsStep
  cases alistLookup acc.1.objects h <;> exact ⟨rfl, rfl, rfl, rfl⟩

/-- Folding sweep-removal steps keeps `statsEq`. -/
theorem foldl_removeObjectsStep_statsEq (hs : List Nat) :
    ∀ acc : GcState × Nat, statsEq (hs.foldl removeObjectsStep acc).1 acc.1 := by
  induction hs with
  | nil => intro acc; exact statsEq_refl _
  | cons h rest ih =>
      intro acc
      exact statsEq_trans (ih _) (removeObjectsStep_statsEq acc h)

/-- The `remove_objects` only rewrites `bytes_allocated` and the object/root
tables. -/
theorem remove_objects_statsEq (s : GcState) (hs : List Nat) :
    statsEq (remove_objects s hs).1 s := by
  unfold remove_objects
  exact statsEq_trans ⟨rfl, rfl, rfl, rfl⟩ (foldl_removeObjectsStep_statsEq hs (s, 0))

/-- Moving one handle from the young set to the old set keeps `statsEq`. -/
theorem promoteSetsStep_statsEq (s : GcState) (h : Nat) :
    statsEq (promoteSetsStep s h) s := ⟨rfl, rfl, rfl, rfl⟩

/-- Folding promotions keeps `statsEq`. -/
theorem foldl_promoteSetsStep_statsEq (l : List Nat) :
    ∀ s : GcState, statsEq (l.foldl promoteSetsStep s) s := by
  induction l with
  | nil => intro s; exact statsEq_refl s
  | cons h rest ih =>
      intro s
      exact statsEq_trans (ih _) (promoteSetsStep_statsEq s h)

/-- The `clear_marks` keeps `statsEq`. -/
theorem clear_marks_statsEq (s : GcState) : statsEq (clear_marks s) s :=
  ⟨rfl, rfl, rfl, rfl⟩

/-- The `mark_from_roots` keeps `statsEq`. -/
theorem mark_from_roots_statsEq (s : GcState) : statsEq (mark_from_roots s) s :=
  ⟨rfl, rfl, rfl, rfl⟩

/-- A minor collection touches no statistics counter and no handle counter. -/
theorem minor_collect_statsEq (s : GcState) : statsEq (minor_collect s).1 s := by
  unfold minor_collect
  refine statsEq_trans (remove_objects_statsEq _ _) ?_
  refine statsEq_trans (foldl_promoteSetsStep_statsEq _ _) ?_
  refine statsEq_trans (⟨rfl, rfl, rfl, rfl⟩ : statsEq _ (mark_from_roots (clear_marks s))) ?_
  exact statsEq_trans (mark_from_roots_statsEq _) (clear_marks_statsEq s)

/-- A full collection touches no statistics counter and no handle counter. -/
theorem full_collect_statsEq (s : GcState) : statsEq (full_collect s).1 s := by
  unfold full_collect
  refine statsEq_trans (remove_objects_statsEq _ _) ?_
  exact statsEq_trans (mark_from_roots_statsEq _) (clear_marks_statsEq s)

/-- Exact counter deltas of `collect`: `total_allocations` and
`next_handle` unchanged, `total_collections` incremented, `bytes_freed`
non-decreasing. -/
theorem collect_stats (s : GcState) :
    (collect s).1.total_allocations = s.total_allocations ∧
    (collect s).1.next_handle = s.next_handle ∧
    (collect s).1.total_collections = s.total_collections + 1 ∧
    s.bytes_freed ≤ (collect s).1.bytes_freed := by
  unfold collect
  by_cases hfull : s.total_collections % 10 = 0
  · simp only [hfull]
    obtain ⟨x1, x2, x3, x4⟩ := full_collect_statsEq s
    simp_all
  · simp only [hfull]
    obtain ⟨x1, x2, x3, x4⟩ := minor_collect_statsEq s
    simp_all

/-- The `stat3Le` is reflexive. -/
theorem stat3Le_refl (s : GcState) : stat3Le s s := ⟨le_refl _, le_refl _, le_refl _⟩

/-- The `stat3Le` is transitive. -/
theorem stat3Le_trans {a b c : GcState} (h1 : stat3Le a b) (h2 : stat3Le b c) :
    stat3Le a c := by
  obtain ⟨x1, x2, x3⟩ := h1
  obtain ⟨y1, y2, y3⟩ := h2
  exact ⟨x1.trans y1, x2.trans y2, x3.trans y3⟩

/-- The `collect` never decreases the three monotone counters. -/
theorem collect_stat3Le (s : GcState) : stat3Le s (collect s).1 := by
  obtain ⟨x1, x2, x3, x4⟩ := collect_stats s
  exact ⟨le_of_eq x1.symm, by omega, x4⟩

/-- The `allocate` never decreases the three monotone counters (also through
the collection it may trigger). -/
theorem allocate_stat3Le (s : GcState) (t : GcObjectType) : stat3Le s (allocate s t).2 := by
  have hmid : ∀ s2 : GcState, stat3Le s2 (if should_collect s2 = true then (collect s2).1 else s2) := by
    intro s2
    by_cases h : should_collect s2 = true
    · simpa [h] using collect_stat3Le s2
    · simpa [h] using stat3Le_refl s2
  exact stat3Le_trans
    (b := { s with
        next_handle := s.next_handle + 1
        objects := alistInsert s.objects s.next_handle
          { object_type := t, generation := .Young, marked := false,
            size := calculate_object_size t, references := extract_references t }
        young_objects := setInsert s.young_objects s.next_handle
        total_allocations := s.total_allocations + 1
        bytes_allocated := s.bytes_allocated + calculate_object_size t })
    ⟨Nat.le_succ _, le_refl _, le_refl _⟩ (hmid _)

/-- Every collector operation keeps the three monotone counters
non-decreasing. -/
theorem applyOp_stat3Le (s : GcState) (op : GcOp) : stat3Le s (applyOp s op) := by
  cases op with
  | allocateOp t => exact allocate_stat3Le s t
  | updateOp h t =>
      unfold applyOp update_object
      cases hl : alistLookup s.objects h <;> simp only [hl] <;>
        exact ⟨le_refl _, le_refl _, le_refl _⟩
  | addRootOp h => exact stat3Le_refl _
  | removeRootOp h => exact stat3Le_refl _
  | collectOp => exact collect_stat3Le s

/-- Sequencing collector operations keeps the three monotone counters
non-decreasing. -/
theorem applyOps_stat3Le (ops : List GcOp) : ∀ s : GcState, stat3Le s (applyOps s ops) := by
  induction ops with
  | nil => intro s; exact stat3Le_refl s
  | cons op rest ih =>
      intro s
      exact stat3Le_trans (applyOp_stat3Le s op) (ih (applyOp s op))

/-- C6 (counterexample to the claim as stated): `bytes_allocated` is not
monotonically non-decreasing.  From a fresh collector, allocating one
boolean box (1 byte, no automatic collection) and then collecting sweeps
the unrooted object and decreases `bytes_allocated` from 1 to 0. -/
theorem c6_bytes_allocated_can_decrease :
    (applyOps gcNew [.allocateOp (.Boolean true), .collectOp]).bytes_allocated <
      (applyOps gcNew [.allocateOp (.Boolean true)]).bytes_allocated := by decide

/-- C6 (amended): across every sequence of collector operations (allocate,
update_object, add_root, remove_root, collect) the counters
`total_allocations`, `total_collections` and `bytes_freed` are
monotonically non-decreasing; `bytes_allocated` is not among them, since a
sweep subtracts the freed bytes from it. -/
theorem c6_counters_monotone (s : GcState) (ops : List GcOp) :
    s.total_allocations ≤ (applyOps s ops).total_allocations ∧
    s.total_collections ≤ (applyOps s ops).total_collections ∧
    s.bytes_freed ≤ (applyOps s ops).bytes_freed :=
  applyOps_stat3Le ops s

/-- Lookup after an insert: the inserted key maps to the new value, others are unchanged. -/
theorem alistLookup_insert {κ ν : Type} [DecidableEq κ] (l : List (κ × ν)) (k k' : κ) (v : ν) :
    alistLookup (alistInsert l k v) k' = if k = k' then some v else alistLookup l k' := by
  induction l with
  | nil => simp [alistInsert, alistLookup]
  | cons p rest ih =>
      obtain ⟨pk, pv⟩ := p
      by_cases hpk : pk = k
      · subst hpk
        by_cases h2 : pk = k' <;> simp [alistInsert, alistLookup, h2]
      · by_cases h1 : pk = k' <;> by_cases h2 : k = k' <;>
          simp_all [alistInsert, alistLookup]

/-- Lookup after a removal: the removed key is gone, others are unchanged. -/
theorem alistLookup_remove {κ ν : Type} [DecidableEq κ] (l : List (κ × ν)) (k k' : κ) :
    alistLookup (alistRemove l k) k' = if k = k' then none else alistLookup l k' := by
  induction l with
  | nil => simp [alistRemove, alistLookup]
  | cons p rest ih =>
      obtain ⟨pk, pv⟩ := p
      by_cases hpk : pk = k <;> by_cases h1 : pk = k' <;> by_cases h2 : k = k' <;>
        simp_all [alistRemove, alistLookup]

/-- Clearing mark bits does not change which keys are present. -/
theorem alistLookup_clearMark (l : List (Nat × GcObject)) (k : Nat) :
    (alistLookup (l.map (fun p => (p.1, { p.2 with marked := false }))) k).isSome =
      (alistLookup l k).isSome := by
  induction l with
  | nil => simp [alistLookup]
  | cons p rest ih =>
      obtain ⟨pk, pv⟩ := p
      by_cases h : pk = k <;> simp_all [alistLookup]

/-- Marking never adds or removes object-table keys (it only rewrites bindings of existing keys). -/
theorem markObject_lookup_isSome (fuel : Nat) :
    ∀ (objs : List (Nat × GcObject)) (h k : Nat),
      (alistLookup (markObject fuel objs h) k).isSome = (alistLookup objs k).isSome := by
  induction fuel with
  | zero => intro objs h k; rfl
  | succ fuel ih =>
      intro objs h k
      unfold markObject
      cases hl : alistLookup objs h with
      | none => rfl
      | some object =>
          by_cases hm : object.marked
          · simp [hm]
          · simp only [hm]
            have aux : ∀ (refs : List Nat) (start : List (Nat × GcObject)),
                (alistLookup (refs.foldl (fun acc h2 => markObject fuel acc h2) start) k).isSome =
                  (alistLookup start k).isSome := by
              intro refs
              induction refs with
              | nil => intro start; rfl
              | cons r rs ihr =>
                  intro start
                  simp only [List.foldl_cons]
                  exact (ihr _).trans (ih start r k)
            simp only [Bool.not_eq_true] at hm
            simp [hm, aux]
            rw [alistLookup_insert]
            by_cases hk : h = k
            · subst hk
              simp [hl]
            · simp [hk]

/-- Marking from the roots never adds or removes object-table keys. -/
theorem mark_from_roots_lookup_isSome (s : GcState) (k : Nat) :
    (alistLookup (mark_from_roots s).objects k).isSome = (alistLookup s.objects k).isSome := by
  unfold mark_from_roots
  have aux : ∀ (roots : List Nat) (fuel : Nat) (start : List (Nat × GcObject)),
      (alistLookup (roots.foldl (fun objs root => markObject fuel objs root) start) k).isSome =
        (alistLookup start k).isSome := by
    intro roots fuel
    induction roots with
    | nil => intro start; rfl
    | cons r rs ihr =>
        intro start
        simp only [List.foldl_cons]
        exact (ihr _).trans (markObject_lookup_isSome fuel start r k)
  exact aux _ _ _

/-- Clearing marks never adds or removes object-table keys. -/
theorem clear_marks_lookup_isSome (s : GcState) (k : Nat) :
    (alistLookup (clear_marks s).objects k).isSome = (alistLookup s.objects k).isSome := by
  unfold clear_marks
  exact alistLookup_clearMark s.objects k

/-- Promoting an object in place never adds or removes object-table keys. -/
theorem promoteObjectsStep_lookup_isSome (objs : List (Nat × GcObject)) (h k : Nat) :
    (alistLookup (promoteObjectsStep objs h) k).isSome = (alistLookup objs k).isSome := by
  unfold promoteObjectsStep
  cases hl : alistLookup objs h with
  | none => rfl
  | some object =>
      rw [alistLookup_insert]
      by_cases hk : h = k
      · subst hk
        simp [hl]
      · simp [hk]

/-- One sweep-removal step only removes object-table keys. -/
theorem removeObjectsStep_lookup_subset (acc : GcState × Nat) (h k : Nat)
    (hk : (alistLookup (removeObjectsStep acc h).1.objects k).isSome = true) :
    (alistLookup acc.1.objects k).isSome = true := by
  unfold removeObjectsStep at hk
  cases hl : alistLookup acc.1.objects h with
  | none => simpa [hl] using hk
  | some object =>
      simp only [hl] at hk
      rw [show (alistLookup ({ acc.1 with
          objects := alistRemove acc.1.objects h,
          young_objects := setRemove acc.1.young_objects h,
          old_objects := setRemove acc.1.old_objects h,
          root_set := setRemove acc.1.root_set h } : GcState).objects k)
        = alistLookup (alistRemove acc.1.objects h) k from rfl, alistLookup_remove] at hk
      by_cases hhk : h = k
      · simp [hhk] at hk
      · simpa [hhk] using hk

/-- Folding sweep-removal steps only removes object-table keys. -/
theorem foldl_removeObjectsStep_lookup_subset (hs : List Nat) :
    ∀ (acc : GcState × Nat) (k : Nat),
      (alistLookup (hs.foldl removeObjectsStep acc).1.objects k).isSome = true →
      (alistLookup acc.1.objects k).isSome = true := by
  induction hs with
  | nil => intro acc k hk; exact hk
  | cons h rest ih =>
      intro acc k hk
      exact removeObjectsStep_lookup_subset acc h k (ih _ k hk)

/-- Sweeping only removes object-table keys. -/
theorem remove_objects_lookup_subset (s : GcState) (hs : List Nat) (k : Nat)
    (hk : (alistLookup (remove_objects s hs).1.objects k).isSome = true) :
    (alistLookup s.objects k).isSome = true := by
  unfold remove_objects at hk
  exact foldl_removeObjectsStep_lookup_subset hs (s, 0) k hk

/-- Folding promotions never adds or removes object-table keys. -/
theorem foldl_promoteObjectsStep_lookup_isSome (proms : List Nat) :
    ∀ (objs : List (Nat × GcObject)) (k : Nat),
      (alistLookup (proms.foldl promoteObjectsStep objs) k).isSome =
        (alistLookup objs k).isSome := by
  induction proms with
  | nil => intro objs k; rfl
  | cons h rest ih =>
      intro objs k
      exact (ih _ k).trans (promoteObjectsStep_lookup_isSome objs h k)

/-- A minor collection only removes object-table keys. -/
theorem minor_collect_lookup_subset (s : GcState) (k : Nat)
    (hk : (alistLookup (minor_collect s).1.objects k).isSome = true) :
    (alistLookup s.objects k).isSome = true := by
  unfold minor_collect at hk
  have h1 := remove_objects_lookup_subset _ _ k hk
  have aux : ∀ (proms : List Nat) (st : GcState) (k : Nat),
      (alistLookup (proms.foldl promoteSetsStep st).objects k).isSome =
        (alistLookup st.objects k).isSome := by
    intro proms
    induction proms with
    | nil => intro st k; rfl
    | cons h rest ihp =>
        intro st k
        exact (ihp _ k).trans rfl
  rw [aux] at h1
  rw [show (alistLookup ({ mark_from_roots (clear_marks s) with
      objects := (((mark_from_roots (clear_marks s)).young_objects.filter (fun h =>
        match alistLookup (mark_from_roots (clear_marks s)).objects h with
        | some object => object.marked
        | none => false))).foldl promoteObjectsStep
          (mark_from_roots (clear_marks s)).objects } : GcState).objects k)
    = alistLookup ((((mark_from_roots (clear_marks s)).young_objects.filter (fun h =>
        match alistLookup (mark_from_roots (clear_marks s)).objects h with
        | some object => object.marked
        | none => false))).foldl promoteObjectsStep
          (mark_from_roots (clear_marks s)).objects) k from rfl] at h1
  rw [foldl_promoteObjectsStep_lookup_isSome] at h1
  rw [mark_from_roots_lookup_isSome, clear_marks_lookup_isSome] at h1
  exact h1

/-- A full collection only removes object-table keys. -/
theorem full_collect_lookup_subset (s : GcState) (k : Nat)
    (hk : (alistLookup (full_collect s).1.objects k).isSome = true) :
    (alistLookup s.objects k).isSome = true := by
  unfold full_collect at hk
  have h1 := remove_objects_lookup_subset _ _ k hk
  rw [mark_from_roots_lookup_isSome, clear_marks_lookup_isSome] at h1
  exact h1

/-- A collection only removes object-table keys. -/
theorem collect_lookup_subset (s : GcState) (k : Nat)
    (hk : (alistLookup (collect s).1.objects k).isSome = true) :
    (alistLookup s.objects k).isSome = true := by
  unfold collect at hk
  by_cases hfull : s.total_collections % 10 = 0
  · simp only [hfull] at hk
    exact full_collect_lookup_subset s k (by simpa using hk)
  · simp only [hfull] at hk
    exact minor_collect_lookup_subset s k (by simpa using hk)

/-- Collecting preserves the handle invariant. -/
theorem HandleInv_collect (s : GcState) (hinv : HandleInv s) : HandleInv (collect s).1 := by
  intro h hk
  rw [(collect_stats s).2.1]
  exact hinv h (collect_lookup_subset s h hk)

/-- Allocation returns the pre-state handle counter as the new handle. -/
theorem allocate_handle (s : GcState) (t : GcObjectType) :
    (allocate s t).1 = s.next_handle := rfl

/-- The conditional collection at the end of an allocation does not move the handle counter. -/
theorem next_handle_if_collect (s2 : GcState) :
    (if should_collect s2 = true then (collect s2).1 else s2).next_handle = s2.next_handle := by
  by_cases h : should_collect s2 = true <;> simp [h, (collect_stats s2).2.1]

/-- Allocation advances the handle counter by exactly one. -/
theorem allocate_next_handle (s : GcState) (t : GcObjectType) :
    (allocate s t).2.next_handle = s.next_handle + 1 := by
  unfold allocate
  exact next_handle_if_collect
    { s with
        next_handle := s.next_handle + 1
        objects := alistInsert s.objects s.next_handle
          { object_type := t, generation := .Young, marked := false,
            size := calculate_object_size t, references := extract_references t }
        young_objects := setInsert s.young_objects s.next_handle
        total_allocations := s.total_allocations + 1
        bytes_allocated := s.bytes_allocated + calculate_object_size t }

/-- No collector operation ever decreases the handle counter. -/
theorem applyOp_next_handle_le (s : GcState) (op : GcOp) :
    s.next_handle ≤ (applyOp s op).next_handle := by
  cases op with
  | allocateOp t => rw [show applyOp s (.allocateOp t) = (allocate s t).2 from rfl,
      allocate_next_handle]; omega
  | updateOp h t =>
      unfold applyOp update_object
      cases hl : alistLookup s.objects h <;> simp only [hl] <;> exact le_refl _
  | addRootOp h => exact le_refl _
  | removeRootOp h => exact le_refl _
  | collectOp => exact le_of_eq ((collect_stats s).2.1).symm

/-- Inserting a fresh object at the current handle counter and advancing the counter preserves the handle invariant. -/
theorem HandleInv_mk (s s' : GcState) (obj : GcObject)
    (hobj : s'.objects = alistInsert s.objects s.next_handle obj)
    (hnh : s'.next_handle = s.next_handle + 1)
    (hinv : HandleInv s) : HandleInv s' := by
  intro h hk
  rw [hobj, alistLookup_insert] at hk
  rw [hnh]
  by_cases hh : s.next_handle = h
  · omega
  · have := hinv h (by simpa [hh] using hk)
    omega

/-- Allocation preserves the handle invariant. -/
theorem HandleInv_allocate (s : GcState) (t : GcObjectType) (hinv : HandleInv s) :
    HandleInv (allocate s t).2 := by
  have hmidinv : HandleInv
      { s with
          next_handle := s.next_handle + 1
          objects := alistInsert s.objects s.next_handle
            { object_type := t, generation := .Young, marked := false,
              size := calculate_object_size t, references := extract_references t }
          young_objects := setInsert s.young_objects s.next_handle
          total_allocations := s.total_allocations + 1
          bytes_allocated := s.bytes_allocated + calculate_object_size t } :=
    HandleInv_mk s _ _ rfl rfl hinv
  rw [show (allocate s t).2 =
      (if should_collect
          { s with
            next_handle := s.next_handle + 1
            objects := alistInsert s.objects s.next_handle
              { object_type := t, generation := .Young, marked := false,
                size := calculate_object_size t, references := extract_references t }
            young_objects := setInsert s.young_objects s.next_handle
            total_allocations := s.total_allocations + 1
            bytes_allocated := s.bytes_allocated + calculate_object_size t }  = true
        then (collect
          { s with
            next_handle := s.next_handle + 1
            objects := alistInsert s.objects s.next_handle
              { object_type := t, generation := .Young, marked := false,
                size := calculate_object_size t, references := extract_references t }
            young_objects := setInsert s.young_objects s.next_handle
            total_allocations := s.total_allocations + 1
            bytes_allocated := s.bytes_allocated + calculate_object_size t }).1
        else
          { s with
            next_handle := s.next_handle + 1
            objects := alistInsert s.objects s.next_handle
              { object_type := t, generation := .Young, marked := false,
                size := calculate_object_size t, references := extract_references t }
            young_objects := setInsert s.young_objects s.next_handle
            total_allocations := s.total_allocations + 1
            bytes_allocated := s.bytes_allocated + calculate_object_size t })
      from rfl]
  split
  · exact HandleInv_collect _ hmidinv
  · exact hmidinv

/-- Updating an object does not move the handle counter. -/
theorem update_object_next_handle (s : GcState) (h : Nat) (t : GcObjectType) :
    (update_object s h t).1.next_handle = s.next_handle := by
  unfold update_object
  cases hl : alistLookup s.objects h <;> simp only [hl]

/-- Every collector operation preserves the handle invariant. -/
theorem HandleInv_applyOp (s : GcState) (op : GcOp) (hinv : HandleInv s) :
    HandleInv (applyOp s op) := by
  cases op with
  | allocateOp t => exact HandleInv_allocate s t hinv
  | updateOp h t =>
      intro k hk
      rw [show applyOp s (.updateOp h t) = (update_object s h t).1 from rfl] at hk ⊢
      rw [update_object_next_handle]
      unfold update_object at hk
      cases hl : alistLookup s.objects h with
      | none =>
          simp only [hl] at hk
          exact hinv k hk
      | some object =>
          simp only [hl] at hk
          rw [show (alistLookup ({ s with
              objects := alistInsert s.objects h { object with
                object_type := t, size := calculate_object_size t,
                references := extract_references t },
              bytes_allocated := s.bytes_allocated - object.size + calculate_object_size t }
                : GcState).objects k)
            = alistLookup (alistInsert s.objects h { object with
                object_type := t, size := calculate_object_size t,
                references := extract_references t }) k from rfl,
            alistLookup_insert] at hk
          by_cases hh : h = k
          · subst hh
            exact hinv h (by simp [hl])
          · exact hinv k (by simpa [hh] using hk)
  | addRootOp h => exact fun k hk => hinv k hk
  | removeRootOp h => exact fun k hk => hinv k hk
  | collectOp => exact HandleInv_collect s hinv

/-- Every sequence of collector operations preserves the handle invariant. -/
theorem HandleInv_applyOps (ops : List GcOp) :
    ∀ s : GcState, HandleInv s → HandleInv (applyOps s ops) := by
  induction ops with
  | nil => exact fun s h => h
  | cons op rest ih =>
      intro s hinv
      exact ih (applyOp s op) (HandleInv_applyOp s op hinv)

/-- A fresh collector satisfies the handle invariant. -/
theorem HandleInv_gcNew : HandleInv gcNew := by
  intro h hk
  simp [gcNew, alistLookup] at hk

/-- Every handle issued along a trace is at least the starting handle counter, and the issued handles are strictly increasing. -/
theorem traceHandles_lower_bound_sorted (ops : List GcOp) :
    ∀ s : GcState,
      (∀ x ∈ traceHandles s ops, s.next_handle ≤ x) ∧
      List.Pairwise (· < ·) (traceHandles s ops) := by
  induction ops with
  | nil => intro s; simp [traceHandles]
  | cons op rest ih =>
      intro s
      cases op with
      | allocateOp t =>
          rw [show traceHandles s (.allocateOp t :: rest)
            = (allocate s t).1 :: traceHandles (applyOp s (.allocateOp t)) rest from rfl]
          have hnext : (applyOp s (.allocateOp t)).next_handle = s.next_handle + 1 :=
            allocate_next_handle s t
          obtain ⟨hlb, hpw⟩ := ih (applyOp s (.allocateOp t))
          refine ⟨?_, ?_⟩
          · intro x hx
            rcases List.mem_cons.mp hx with hx | hx
            · rw [hx, allocate_handle]
            · have := hlb x hx
              omega
          · refine List.Pairwise.cons ?_ hpw
            intro x hx
            have := hlb x hx
            rw [allocate_handle]
            omega
      | updateOp h t =>
          obtain ⟨hlb, hpw⟩ := ih (applyOp s (.updateOp h t))
          refine ⟨fun x hx => ?_, hpw⟩
          have h1 := applyOp_next_handle_le s (.updateOp h t)
          have := hlb x hx
          omega
      | addRootOp h =>
          obtain ⟨hlb, hpw⟩ := ih (applyOp s (.addRootOp h))
          exact ⟨fun x hx => hlb x hx, hpw⟩
      | removeRootOp h =>
          obtain ⟨hlb, hpw⟩ := ih (applyOp s (.removeRootOp h))
          exact ⟨fun x hx => hlb x hx, hpw⟩
      | collectOp =>
          obtain ⟨hlb, hpw⟩ := ih (applyOp s .collectOp)
          refine ⟨fun x hx => ?_, hpw⟩
          have h1 := applyOp_next_handle_le s .collectOp
          have := hlb x hx
          omega

/-- C7: starting from a fresh collector, the handles returned by successive allocate calls are strictly increasing (hence pairwise distinct), and any handle present in the object table after a prefix of operations, in particular any handle later swept by a collection, is never returned by an allocate in the remaining operations (freed handles are never reissued). -/
theorem c7_handles_strictly_increasing_never_reissued (pre post : List GcOp) (h : Nat)
    (hmem : (alistLookup (applyOps gcNew pre).objects h).isSome = true) :
    List.Pairwise (· < ·) (traceHandles gcNew (pre ++ post)) ∧
    List.Pairwise (· ≠ ·) (traceHandles gcNew (pre ++ post)) ∧
    h ∉ traceHandles (applyOps gcNew pre) post := by
  refine ⟨(traceHandles_lower_bound_sorted _ gcNew).2, ?_, ?_⟩
  · exact ((traceHandles_lower_bound_sorted _ gcNew).2).imp (fun hlt => Nat.ne_of_lt hlt)
  · intro hx
    have h1 : h < (applyOps gcNew pre).next_handle :=
      HandleInv_applyOps pre gcNew HandleInv_gcNew h hmem
    have h2 := (traceHandles_lower_bound_sorted post (applyOps gcNew pre)).1 h hx
    omega

/-- Witness for C7: after two allocations (handles 1 and 2), a collection sweeps them, and the next allocation returns 3, so handle 1 is not reissued. -/
theorem c7_handles_strictly_increasing_never_reissued_witness :
    (alistLookup (applyOps gcNew [GcOp.allocateOp .Null, .allocateOp (.Boolean true)]).objects 1).isSome = true ∧
    (List.Pairwise (· < ·)
      (traceHandles gcNew ([GcOp.allocateOp .Null, .allocateOp (.Boolean true)] ++
        [GcOp.collectOp, .allocateOp .Null])) ∧
     List.Pairwise (· ≠ ·)
      (traceHandles gcNew ([GcOp.allocateOp .Null, .allocateOp (.Boolean true)] ++
        [GcOp.collectOp, .allocateOp .Null])) ∧
     1 ∉ traceHandles (applyOps gcNew [GcOp.allocateOp .Null, .allocateOp (.Boolean true)])
        [GcOp.collectOp, .allocateOp .Null]) :=
  ⟨by decide,
    c7_handles_strictly_increasing_never_reissued [GcOp.allocateOp .Null, .allocateOp (.Boolean true)]
      [GcOp.collectOp, .allocateOp .Null] 1 (by decide)⟩

/-- A successful `patch_jump` call requires the patched index to hold one
of the three jump instructions, and overwrites its operand with
`target - jump_index - 1`, leaving everything else unchanged. -/
theorem patch_jump_ok_shape (b b' : Bytecode) (j t : Nat)
    (hp : b.patch_jump j t = .ok b') :
    j < b.instructions.length ∧
    (b'.instructions = b.instructions.set j (.Jump ((t : Int) - (j : Int) - 1)) ∨
     b'.instructions = b.instructions.set j (.JumpIfFalse ((t : Int) - (j : Int) - 1)) ∨
     b'.instructions = b.instructions.set j (.JumpIfTrue ((t : Int) - (j : Int) - 1))) := by
  rcases hi : b.instructions[j]? with _ | instr
  · simp [Bytecode.patch_jump, hi] at hp
  · obtain ⟨hlt, -⟩ := List.getElem?_eq_some.mp hi
    refine ⟨hlt, ?_⟩
    cases instr <;> simp [Bytecode.patch_jump, hi] at hp <;>
      simp [← hp, Bytecode.instructions]

/-- C8: after `patch_jump jump_index target` succeeds, the stored offset is
`target - jump_index - 1`, and dispatching the patched jump at
`pc = jump_index` sets the program counter to
`jump_index + 1 + offset = target` — unconditionally for `Jump`, and on the
branch-taken path for `JumpIfFalse`/`JumpIfTrue` (which also pop the
condition). -/
theorem c8_patched_jump_lands_on_target (b b' : Bytecode) (j t : Nat)
    (hp : b.patch_jump j t = .ok b')
    (gc : GcState) (glob : List (String × Value)) (locals : List Value) (base : Nat)
    (rest : List CallFrame) (v : Value) (stk : List Value) (maxS maxC : Nat)
    (hstk : stk.length ≤ maxS) (hcall : rest.length + 1 ≤ maxC) :
    (∀ off : Int, (b'.instructions[j]? = some (.Jump off) ∨
             b'.instructions[j]? = some (.JumpIfFalse off) ∨
             b'.instructions[j]? = some (.JumpIfTrue off)) →
      off = (t : Int) - (j : Int) - 1) ∧
    (b'.instructions[j]? = some (.Jump ((t : Int) - (j : Int) - 1)) →
      runInterpreterStep
        { gc := gc, stack := stk,
          call_stack := { bytecode := b', pc := j, locals := locals,
                          base_stack_offset := base } :: rest,
          globals := glob, max_stack_size := maxS, max_call_depth := maxC } =
      .next { gc := gc, stack := stk,
              call_stack := { bytecode := b', pc := t, locals := locals,
                              base_stack_offset := base } :: rest,
              globals := glob, max_stack_size := maxS, max_call_depth := maxC }) ∧
    (b'.instructions[j]? = some (.JumpIfFalse ((t : Int) - (j : Int) - 1)) →
      v.to_boolean = false →
      runInterpreterStep
        { gc := gc, stack := v :: stk,
          call_stack := { bytecode := b', pc := j, locals := locals,
                          base_stack_offset := base } :: rest,
          globals := glob, max_stack_size := maxS, max_call_depth := maxC } =
      .next { gc := gc, stack := stk,
              call_stack := { bytecode := b', pc := t, locals := locals,
                              base_stack_offset := base } :: rest,
              globals := glob, max_stack_size := maxS, max_call_depth := maxC }) ∧
    (b'.instructions[j]? = some (.JumpIfTrue ((t : Int) - (j : Int) - 1)) →
      v.to_boolean = true →
      runInterpreterStep
        { gc := gc, stack := v :: stk,
          call_stack := { bytecode := b', pc := j, locals := locals,
                          base_stack_offset := base } :: rest,
          globals := glob, max_stack_size := maxS, max_call_depth := maxC } =
      .next { gc := gc, stack := stk,
              call_stack := { bytecode := b', pc := t, locals := locals,
                              base_stack_offset := base } :: rest,
              globals := glob, max_stack_size := maxS, max_call_depth := maxC }) := by
  have harith : (((j : Int)) + ((t : Int) - (j : Int) - 1) + 1).toNat = t := by omega
  refine ⟨?_, ?_, ?_, ?_⟩
  · intro off hoff
    obtain ⟨hlt, hshape⟩ := patch_jump_ok_shape b b' j t hp
    rcases hshape with hs | hs | hs <;>
      rw [hs, List.getElem?_set_eq_of_lt _ hlt] at hoff <;>
      rcases hoff with h1 | h1 | h1 <;> simp_all
  · intro hj
    simp [runInterpreterStep, hj, stepInstr, harith]
    rw [if_neg (by omega), if_neg (by omega)]
  · intro hj hv
    simp [runInterpreterStep, hj, stepInstr, pop_stack, hv, harith,
      bind, Except.bind, Except.instMonad]
    rw [if_neg (by omega), if_neg (by omega)]
  · intro hj hv
    simp [runInterpreterStep, hj, stepInstr, pop_stack, hv, harith,
      bind, Except.bind, Except.instMonad]
    rw [if_neg (by omega), if_neg (by omega)]

/-- Witness for C8: patching the `Jump(0)` at index 0 to target 2 stores
offset 1, and executing it moves the program counter to 2. -/
theorem c8_patched_jump_lands_on_target_witness :
    (Bytecode.mk [.Jump 0, .Nop, .Nop] [] [] []).patch_jump 0 2 =
      .ok (.mk [.Jump 1, .Nop, .Nop] [] [] []) ∧
    runInterpreterStep
      { gc := gcNew, stack := [],
        call_stack := [{ bytecode := .mk [.Jump 1, .Nop, .Nop] [] [] [], pc := 0,
                         locals := [], base_stack_offset := 0 }],
        globals := [], max_stack_size := 10000, max_call_depth := 1000 } =
    .next { gc := gcNew, stack := [],
            call_stack := [{ bytecode := .mk [.Jump 1, .Nop, .Nop] [] [] [], pc := 2,
                             locals := [], base_stack_offset := 0 }],
            globals := [], max_stack_size := 10000, max_call_depth := 1000 } :=
  ⟨rfl,
    (c8_patched_jump_lands_on_target (.mk [.Jump 0, .Nop, .Nop] [] [] [])
      (.mk [.Jump 1, .Nop, .Nop] [] [] []) 0 2 rfl gcNew [] [] 0 [] .Null [] 10000 1000
      (by decide) (by decide)).2.1 rfl⟩

/-- C9: with `right` above `left` on the operand stack, `LogicalAnd` pushes
`left` when `left` is falsy and `right` otherwise, and `LogicalOr` pushes
`left` when `left` is truthy and `right` otherwise — the pushed result is
the original operand value, not its boolean coercion.  (The two bound
hypotheses exclude the loop's stack-overflow and call-depth guards, which
fire only at the configured limits.) -/
theorem c9_logical_and_or_select (gc : GcState) (glob : List (String × Value))
    (b : Bytecode) (pc base : Nat) (locals : List Value) (rest : List CallFrame)
    (left right : Value) (stk : List Value) (maxS maxC : Nat)
    (hstk : stk.length < maxS) (hcall : rest.length + 1 ≤ maxC) :
    (b.instructions[pc]? = some .LogicalAnd →
      runInterpreterStep
        { gc := gc, stack := right :: left :: stk,
          call_stack := { bytecode := b, pc := pc, locals := locals,
                          base_stack_offset := base } :: rest,
          globals := glob, max_stack_size := maxS, max_call_depth := maxC } =
      .next { gc := gc,
              stack := (if left.to_boolean then right else left) :: stk,
              call_stack := { bytecode := b, pc := pc + 1, locals := locals,
                              base_stack_offset := base } :: rest,
              globals := glob, max_stack_size := maxS, max_call_depth := maxC }) ∧
    (b.instructions[pc]? = some .LogicalOr →
      runInterpreterStep
        { gc := gc, stack := right :: left :: stk,
          call_stack := { bytecode := b, pc := pc, locals := locals,
                          base_stack_offset := base } :: rest,
          globals := glob, max_stack_size := maxS, max_call_depth := maxC } =
      .next { gc := gc,
              stack := (if left.to_boolean then left else right) :: stk,
              call_stack := { bytecode := b, pc := pc + 1, locals := locals,
                              base_stack_offset := base } :: rest,
              globals := glob, max_stack_size := maxS, max_call_depth := maxC }) := by
  constructor <;> intro h <;>
    simp [runInterpreterStep, h, stepInstr, pop_stack, push_stack, advancePc,
      bind, Except.bind, Except.instMonad, Nat.not_le.mpr hstk] <;>
    rw [if_neg (by omega), if_neg (by omega)]

/-- Witness for C9: a falsy `left` (`Null`) under `LogicalAnd` leaves
`Null` itself on the stack. -/
theorem c9_logical_and_or_select_witness :
    (([] : List Value).length < 10000 ∧ ([] : List CallFrame).length + 1 ≤ 1000) ∧
    (Bytecode.mk [.LogicalAnd] [] [] []).instructions[0]? = some .LogicalAnd ∧
    runInterpreterStep
      { gc := gcNew, stack := [.String "x", .Null],
        call_stack := [{ bytecode := .mk [.LogicalAnd] [] [] [], pc := 0, locals := [],
                         base_stack_offset := 0 }],
        globals := [], max_stack_size := 10000, max_call_depth := 1000 } =
    .next { gc := gcNew, stack := [.Null],
            call_stack := [{ bytecode := .mk [.LogicalAnd] [] [] [], pc := 1, locals := [],
                             base_stack_offset := 0 }],
            globals := [], max_stack_size := 10000, max_call_depth := 1000 } :=
  ⟨⟨by decide, by decide⟩, rfl,
    (c9_logical_and_or_select gcNew [] (.mk [.LogicalAnd] [] [] []) 0 0 [] []
      .Null (.String "x") [] 10000 1000 (by decide) (by decide)).1 rfl⟩

end Bebion
